import Mathlib

/-!
# monitor-service: the telemetry agent of `main.go`

A shallow embedding of `main.go` (address resolution, one iteration of the
sampling loop, the publisher and the start-up configuration) together with the
parts of the Go standard library the program calls (`net.IP`, `strings`,
`strconv.Atoi`, `encoding/json` for the `Metrics` struct, `time.Duration`).

Conventions
* a Go `string` is a Lean `String` (a string of valid UTF-8; every string the program
  builds itself is ASCII), a Go `error` is the text of `err.Error()`;
* a Go result pair `(v, err)` is an `Except String _`;
* a `float64` is its IEEE-754 bit pattern, a `Nat` below `2^64`;
* calls that leave the process (`net.Interfaces`, `iface.Addrs`, `cpu.Percent`,
  `mem.VirtualMemory`, `disk.Usage`, `http.Post`, `ioutil.ReadAll`,
  `os.LookupEnv`, `os.OpenFile`) are inputs of the embedded functions;
* what the program does to the outside (log lines, the POST, the sleep) is the
  list of `Event`s a function returns, in program order; a log line is its format
  string and its arguments, not the rendered text;
* `int` has 64 bits; the string escapes of `encoding/json` are those of Go 1.22 and later
  (`\b` and `\f` for the bytes 8 and 12, `\u0008` and `\u000c` before).
-/

namespace MonitorService

/-! ## Data model -/

/-- A `float64`, as its IEEE-754 binary64 bit pattern. -/
abbrev Float64 := Nat

/-- The struct `Metrics` (main.go:22-27); the zero value of a `float64` field is `+0`. -/
structure Metrics where
  ClientIP : String
  CPUUsage : Float64 := 0
  MemoryUsage : Float64 := 0
  DiskUsage : Float64 := 0
  deriving DecidableEq, Repr

/-- The struct `strconv.NumError`: the failing function, the input and the reason. -/
structure NumError where
  Func : String
  Num : String
  Err : String
  deriving DecidableEq, Repr

/-- An argument of a formatted log call. -/
inductive Arg where
  | str (s : String)
  | err (e : String)
  | numError (e : NumError)
  | metrics (m : Metrics)
  deriving DecidableEq, Repr

/-- An effect of the program that is visible from outside, in program order. -/
inductive Event where
  | logPrintf (format : String) (args : List Arg)
  | logPrintln (text : String)
  | fmtPrintln (text : String) (e : String)
  | logSetOutput (path : String)
  | httpPost (url contentType body : String)
  | bodyClose
  | sleep (nanoseconds : Int)
  deriving DecidableEq, Repr

/-! ## Package `net` -/

/-- A `net.IP`: a byte slice; `nil` and the empty slice are both `[]`. -/
abbrev IP := List Nat

/-- The constant `net.IPv4len`. -/
def IPv4len : Nat := 4

/-- The constant `net.IPv6len`. -/
def IPv6len : Nat := 16

/-- The helper `isZeros` of package `net`: every byte is 0. -/
def isZeros (p : List Nat) : Bool := p.all (fun b => b == 0)

/-- The method `net.IP.To4`; `none` is the `nil` result. -/
def IP.To4 (ip : IP) : Option IP :=
  if ip.length = IPv4len then some ip
  else if ip.length = IPv6len ∧ isZeros (ip.take 10) = true ∧ ip.getD 10 0 = 0xff ∧ ip.getD 11 0 = 0xff then
    some ((ip.drop 12).take 4)
  else none

/-- The first twelve bytes of an IPv4-mapped IPv6 address. -/
def v4InV6Prefix : List Nat := [0, 0, 0, 0, 0, 0, 0, 0, 0, 0, 0xff, 0xff]

/-- The variable `net.IPv6loopback`, the address `::1`. -/
def IPv6loopback : IP := [0, 0, 0, 0, 0, 0, 0, 0, 0, 0, 0, 0, 0, 0, 0, 1]

/-- The method `net.IP.Equal`. -/
def IP.Equal (ip x : IP) : Bool :=
  if ip.length = x.length then ip == x
  else if ip.length = IPv4len ∧ x.length = IPv6len then
    x.take 12 == v4InV6Prefix && ip == x.drop 12
  else if ip.length = IPv6len ∧ x.length = IPv4len then
    ip.take 12 == v4InV6Prefix && ip.drop 12 == x
  else false

/-- The method `net.IP.IsLoopback`. -/
def IP.IsLoopback (ip : IP) : Bool :=
  match IP.To4 ip with
  | some ip4 => ip4.getD 0 0 == 127
  | none => IP.Equal ip IPv6loopback

/-- The method `net.IP.IsLinkLocalUnicast`. -/
def IP.IsLinkLocalUnicast (ip : IP) : Bool :=
  match IP.To4 ip with
  | some ip4 => ip4.getD 0 0 == 169 && ip4.getD 1 0 == 254
  | none => ip.length == IPv6len && ip.getD 0 0 == 0xfe && ip.getD 1 0 &&& 0xc0 == 0x80

/-- Decimal digits of a natural number, most significant first (`fuel` bounds the length). -/
def decimalDigits : Nat → Nat → List Char
  | 0, _ => []
  | fuel + 1, n =>
    if n < 10 then [Char.ofNat (48 + n)]
    else decimalDigits fuel (n / 10) ++ [Char.ofNat (48 + n % 10)]

/-- The decimal text of a natural number, as `strconv.Itoa` prints it. -/
def itoa (n : Nat) : String := String.mk (decimalDigits (n + 1) n)

/-- Dotted-decimal text of the four bytes of an IPv4 address. -/
def dotted (p4 : IP) : String :=
  itoa (p4.getD 0 0) ++ "." ++ itoa (p4.getD 1 0) ++ "." ++ itoa (p4.getD 2 0) ++ "." ++ itoa (p4.getD 3 0)

/-- The lower-case hexadecimal digit of a value below 16. -/
def hexDigit (n : Nat) : Char := "0123456789abcdef".toList.getD n '0'

/-- Lower-case hexadecimal digits of a natural number, without leading zeros. -/
def hexDigits : Nat → Nat → List Char
  | 0, _ => []
  | fuel + 1, n =>
    if n < 16 then [hexDigit n]
    else hexDigits fuel (n / 16) ++ [hexDigit (n % 16)]

/-- The eight 16-bit fields of a 16-byte address. -/
def fields16 : List Nat → List Nat
  | hi :: lo :: rest => (hi * 256 + lo) :: fields16 rest
  | _ => []

/-- Length of the run of zero fields at the head of a list. -/
def zeroRun : List Nat → Nat
  | 0 :: rest => zeroRun rest + 1
  | _ => 0

/-- Start and length of the first longest run of at least two zero fields, if any. -/
def longestZeroRun : Nat → List Nat → Option (Nat × Nat)
  | _, [] => none
  | i, f :: rest =>
    let here := zeroRun (f :: rest)
    match longestZeroRun (i + 1) rest with
    | some (j, n) => if here ≥ 2 ∧ here ≥ n then some (i, here) else some (j, n)
    | none => if here ≥ 2 then some (i, here) else none

/-- The fields of an IPv6 address in hexadecimal, separated by colons. -/
def joinColon (fs : List Nat) : String :=
  ":".intercalate (fs.map (fun f => String.mk (hexDigits 5 f)))

/-- Text of a 16-byte address that is not IPv4-mapped, as `netip.Addr.String` prints it. -/
def ip6Text (ip : IP) : String :=
  let fs := fields16 ip
  match longestZeroRun 0 fs with
  | some (i, n) => joinColon (fs.take i) ++ "::" ++ joinColon (fs.drop (i + n))
  | none => joinColon fs

/-- The method `net.IP.String`. -/
def IP.String (ip : IP) : String :=
  if ip.length = 0 then "<nil>"
  else if ip.length ≠ IPv4len ∧ ip.length ≠ IPv6len then
    "?" ++ String.mk (ip.flatMap (fun b => [hexDigit (b / 16), hexDigit (b % 16)]))
  else match IP.To4 ip with
    | some p4 => dotted p4
    | none => ip6Text ip

/-- A `net.Addr`: the two concrete types the program inspects, or any other implementation. -/
inductive Addr where
  | IPNet (ip : IP) (mask : List Nat)
  | IPAddr (ip : IP) (zone : String)
  | other (network text : String)
  deriving DecidableEq, Repr

/-- A `net.Interface` together with what its method `Addrs()` returns. -/
structure Interface where
  Name : String
  Flags : Nat
  Addrs : Except String (List Addr)

/-- The constant `net.FlagUp` (`1 << 0`). -/
def FlagUp : Nat := 1

/-- The constant `net.FlagLoopback` (`1 << 2`). -/
def FlagLoopback : Nat := 4

/-! ## Package `strings` -/

/-- The function `strings.HasPrefix`. -/
def HasPrefix (s pre : String) : Bool := pre.toList.isPrefixOf s.toList

/-! ## `getLocalIP` (main.go:128-178) -/

/-- The type switch of main.go:149-155; an address of another type leaves `ip` nil. -/
def addrIP : Addr → IP
  | .IPNet ip _ => ip
  | .IPAddr ip _ => ip
  | .other _ _ => []

/-- The filter of main.go:157. -/
def isValidIP (ip : IP) : Bool :=
  ip.length != 0 && (IP.To4 ip).isSome && !IP.IsLoopback ip && !IP.IsLinkLocalUnicast ip

/-- The variables the two loops of `getLocalIP` update. -/
structure Scan where
  validIPs : List String
  log : List Event

/-- Body of the inner loop, main.go:148-161. -/
def scanAddr (ifaceName : String) (st : Scan) (addr : Addr) : Scan :=
  let ip := addrIP addr
  if isValidIP ip then
    { validIPs := st.validIPs ++ [IP.String ip]
      log := st.log ++ [Event.logPrintf "Encontrada IP válida: %s en la interfaz %s\n"
        [Arg.str (IP.String ip), Arg.str ifaceName]] }
  else st

/-- Body of the outer loop, main.go:136-162. -/
def scanInterface (st : Scan) (iface : Interface) : Scan :=
  if iface.Flags &&& FlagUp = 0 ∨ iface.Flags &&& FlagLoopback ≠ 0 then st
  else match iface.Addrs with
    | .error e =>
      { st with log := st.log ++ [Event.logPrintf
          "Error al obtener direcciones para la interfaz %s: %v\n" [Arg.str iface.Name, Arg.err e]] }
    | .ok addrs => addrs.foldl (scanAddr iface.Name) st

/-- The loop of main.go:170-174: the first element with the prefix, if there is one. -/
def firstWithPrefix (pre : String) : List String → Option String
  | [] => none
  | ip :: rest => if HasPrefix ip pre then some ip else firstWithPrefix pre rest

/-- The loop of main.go:134-162 over all interfaces, from an empty `validIPs`. -/
def scanAll (interfaces : List Interface) : Scan :=
  interfaces.foldl scanInterface { validIPs := [], log := [] }

/-- The function `getLocalIP`; the argument is what `net.Interfaces()` returns. -/
def getLocalIP (netInterfaces : Except String (List Interface)) : Except String String × List Event :=
  match netInterfaces with
  | .error e => (.error ("error al obtener interfaces de red: " ++ e), [])
  | .ok interfaces =>
    let st := scanAll interfaces
    match st.validIPs with
    | [] => (.ok "127.0.0.1",
        st.log ++ [Event.logPrintln "No se encontró ninguna IP válida. Usando fallback 127.0.0.1"])
    | first :: rest =>
      match firstWithPrefix "192.168.1." (first :: rest) with
      | some ip => (.ok ip, st.log)
      | none => (.ok first, st.log)

/-! ## Package `strconv`: `Atoi` on a 64-bit platform -/

/-- The text of `strconv.ErrSyntax`. -/
def ErrSyntax : String := "invalid syntax"

/-- The text of `strconv.ErrRange`. -/
def ErrRange : String := "value out of range"

/-- The function `syntaxError` of package `strconv`. -/
def syntaxError (fn s : String) : NumError := { Func := fn, Num := s, Err := ErrSyntax }

/-- The function `rangeError` of package `strconv`. -/
def rangeError (fn s : String) : NumError := { Func := fn, Num := s, Err := ErrRange }

/-- The digit loop of the fast path of `Atoi`: `none` at the first byte that is not a digit. -/
def atoiLoop : List Char → Nat → Option Nat
  | [], n => some n
  | ch :: rest, n =>
    if '0' ≤ ch ∧ ch ≤ '9' then atoiLoop rest (n * 10 + (ch.toNat - 48)) else none

/-- The digit loop of `ParseUint(s, 10, 64)`: the reason of the failure, or the value. -/
def parseUintLoop : List Char → Nat → Except String Nat
  | [], n => .ok n
  | ch :: rest, n =>
    if '0' ≤ ch ∧ ch ≤ '9' then
      if n ≥ (2 ^ 64 - 1) / 10 + 1 then .error ErrRange
      else
        let n1 := n * 10 + (ch.toNat - 48)
        if n1 > 2 ^ 64 - 1 then .error ErrRange else parseUintLoop rest n1
    else .error ErrSyntax

/-- The function `strconv.ParseUint(s, 10, 64)`, on the characters of `s`. -/
def ParseUint (cs : List Char) : Except String Nat :=
  match cs with
  | [] => .error ErrSyntax
  | _ => parseUintLoop cs 0

/-- The function `strconv.ParseInt(s, 10, 0)` with a 64-bit `int`. -/
def ParseInt (s : String) : Except NumError Int :=
  match s.toList with
  | [] => .error (syntaxError "ParseInt" s)
  | c :: rest =>
    let neg := c == '-'
    let digits := if c == '+' ∨ c == '-' then rest else c :: rest
    match ParseUint digits with
    | .error reason =>
      if reason = ErrRange then .error (rangeError "ParseInt" s)
      else .error (syntaxError "ParseInt" s)
    | .ok un =>
      if ¬ neg ∧ un ≥ 2 ^ 63 then .error (rangeError "ParseInt" s)
      else if neg ∧ un > 2 ^ 63 then .error (rangeError "ParseInt" s)
      else .ok (if neg then - (un : Int) else (un : Int))

/-- The function `strconv.Atoi`: the fast path for inputs of 1 to 18 bytes, `ParseInt`
otherwise (with the function name of the error replaced). -/
def Atoi (s : String) : Except NumError Int :=
  if 0 < s.utf8ByteSize ∧ s.utf8ByteSize < 19 then
    match s.toList with
    | [] => .error (syntaxError "Atoi" s)
    | c :: rest =>
      let digits := if c == '-' ∨ c == '+' then rest else c :: rest
      if digits.length < 1 then .error (syntaxError "Atoi" s)
      else match atoiLoop digits 0 with
        | none => .error (syntaxError "Atoi" s)
        | some n => .ok (if c == '-' then - (n : Int) else (n : Int))
  else
    match ParseInt s with
    | .error e => .error { e with Func := "Atoi" }
    | .ok n => .ok n

/-! ## Package `time` -/

/-- Two's-complement wrap-around of an integer to the range of `int64`. -/
def wrapInt64 (x : Int) : Int := (x + 2 ^ 63) % 2 ^ 64 - 2 ^ 63

/-- The constant `time.Second`, in nanoseconds. -/
def Second : Int := 1000000000

/-- The expression `time.Duration(intervalSeconds) * time.Second` of main.go:99. -/
def sleepDuration (intervalSeconds : Int) : Int := wrapInt64 (intervalSeconds * Second)

/-! ## `getEnv` (main.go:180-185) -/

/-- The function `getEnv`; `lookupEnv` is `os.LookupEnv`. -/
def getEnv (lookupEnv : String → Option String) (key fallback : String) : String :=
  match lookupEnv key with
  | some value => value
  | none => fallback

/-! ## `float64` and package `strconv`: shortest decimal formatting -/

/-- The sign bit of a `float64`. -/
def signBit (f : Float64) : Bool := f / 2 ^ 63 % 2 == 1

/-- The 11 exponent bits of a `float64`. -/
def expBits (f : Float64) : Nat := f / 2 ^ 52 % 2048

/-- The 52 fraction bits of a `float64`. -/
def fracBits (f : Float64) : Nat := f % 2 ^ 52

/-- The function `math.IsNaN`. -/
def IsNaN (f : Float64) : Bool := expBits f == 2047 && fracBits f != 0

/-- The function `math.IsInf(f, 0)`. -/
def IsInf (f : Float64) : Bool := expBits f == 2047 && fracBits f == 0

/-- The mantissa of a finite `float64`, with the implicit top bit of a normal number. -/
def mantissa (f : Float64) : Nat := if expBits f = 0 then fracBits f else fracBits f + 2 ^ 52

/-- The exponent `e` with `|f| = mantissa f * 2 ^ e` for a finite `float64`. -/
def exponent (f : Float64) : Int := (if expBits f = 0 then 1 else (expBits f : Int)) - 1075

/-- A finite positive `float64` with the two ends of the interval of reals that round to
it, all three as numerators over the common denominator `den`; the ends belong to the
interval when `inclusive` (an even mantissa). -/
structure Bounds where
  lower : Nat
  value : Nat
  upper : Nat
  den : Nat
  inclusive : Bool
  deriving DecidableEq, Repr

/-- The interval `roundShortest` computes: half way to the next `float64` above, and half
way to the one below (which is twice as near when the mantissa is `2^52` and the exponent
is not the least one). -/
def bounds (f : Float64) : Bounds :=
  let m := mantissa f
  let e := exponent f - 2
  let scale := 2 ^ e.toNat
  let lo := if m > 2 ^ 52 ∨ expBits f ≤ 1 then 4 * m - 2 else 4 * m - 1
  { lower := lo * scale, value := 4 * m * scale, upper := (4 * m + 2) * scale,
    den := 2 ^ (-e).toNat, inclusive := m % 2 == 0 }

/-- The power `10^p` for `p ≥ 0`, and `1` for a negative `p`. -/
def pow10 (p : Int) : Nat := 10 ^ p.toNat

/-- Comparison of the fraction `x / den` with the decimal `c * 10^p`. -/
def cmpDecimal (x den c : Nat) (p : Int) : Ordering :=
  compare (x * pow10 (-p)) (c * pow10 p * den)

/-- The least `k ≥ start` with `x / den < 10^k`: the position of the decimal point. -/
def decimalPoint (x den : Nat) : Nat → Int → Int
  | 0, k => k
  | fuel + 1, k => if cmpDecimal x den 1 k = .lt then k else decimalPoint x den fuel (k + 1)

/-- The digit walk of `roundShortest`: with `n` digits kept (`q`, in units of `10^p`), stop
as soon as truncating (`q`) or rounding up (`q + 1`) stays inside the interval; when both
do, round to nearest, ties to the even digit. Result: the digits as a number, and `p`.
The walk ends within 17 digits; should the fuel run out, it rounds up. -/
def shortestLoop (b : Bounds) (dp : Int) : Nat → Nat → Nat × Int
  | 0, n => (b.value * pow10 (-(dp - n)) / (b.den * pow10 (dp - n)) + 1, dp - n)
  | fuel + 1, n =>
    let p := dp - n
    let q := b.value * pow10 (-p) / (b.den * pow10 p)
    let okdown := cmpDecimal b.lower b.den q p == .lt
      || (b.inclusive && cmpDecimal b.lower b.den q p == .eq)
    let okup := cmpDecimal b.upper b.den (q + 1) p == .gt
      || (b.inclusive && cmpDecimal b.upper b.den (q + 1) p == .eq)
    let half := cmpDecimal (2 * b.value) b.den (2 * q + 1) p
    let roundUp := half == .gt || (half == .eq && q % 2 == 1)
    if okdown && okup then (if roundUp then (q + 1, p) else (q, p))
    else if okdown then (q, p)
    else if okup then (q + 1, p)
    else shortestLoop b dp fuel (n + 1)

/-- A list of digits without its trailing zeros. -/
def trimZeros (ds : List Char) : List Char := (ds.reverse.dropWhile (fun c => c == '0')).reverse

/-- The struct `decimalSlice`: the digits `d[0:nd]` and the position `dp` of the point. -/
structure DecimalSlice where
  d : List Char
  dp : Int
  deriving DecidableEq, Repr

/-- The shortest decimal that rounds to `f` (the mode `prec = -1` of `FormatFloat`). -/
def shortest (f : Float64) : DecimalSlice :=
  if mantissa f = 0 then { d := [], dp := 0 }
  else
    let b := bounds f
    let dp := decimalPoint b.value b.den 700 (-330)
    let r := shortestLoop b dp 20 0
    let ds := decimalDigits (r.1 + 1) r.1
    { d := trimZeros ds, dp := r.2 + ds.length }

/-- The function `fmtF` of `strconv`, with the precision `max (nd - dp) 0` of the
shortest mode: `-ddddd.ddddd`. -/
def fmtF (neg : Bool) (d : DecimalSlice) : List Char :=
  let nd : Int := d.d.length
  let prec := (nd - d.dp).toNat
  (if neg then ['-'] else [])
  ++ (if d.dp > 0 then d.d.take d.dp.toNat ++ List.replicate (d.dp.toNat - d.d.length) '0' else ['0'])
  ++ (if prec > 0 then
        '.' :: (List.range prec).map (fun (i : Nat) =>
          let j : Int := d.dp + (i : Int)
          if 0 ≤ j ∧ j < nd then d.d.getD j.toNat '0' else '0')
      else [])

/-- The function `fmtE` of `strconv`, with the precision `nd - 1` of the shortest mode:
`-d.dddde±dd`. -/
def fmtE (neg : Bool) (d : DecimalSlice) : List Char :=
  let exp : Int := if d.d.length = 0 then 0 else d.dp - 1
  let mag := exp.natAbs
  (if neg then ['-'] else [])
  ++ [d.d.getD 0 '0']
  ++ (if d.d.length - 1 > 0 then '.' :: d.d.drop 1 else [])
  ++ ['e', if exp < 0 then '-' else '+']
  ++ (if mag < 10 then ['0', Char.ofNat (48 + mag)]
      else if mag < 100 then [Char.ofNat (48 + mag / 10), Char.ofNat (48 + mag % 10)]
      else [Char.ofNat (48 + mag / 100), Char.ofNat (48 + mag / 10 % 10), Char.ofNat (48 + mag % 10)])

/-! ## Package `encoding/json`: encoding a `Metrics` value -/

/-- The bits of the `float64` constant `1e-6`. -/
def bits1em6 : Float64 := 0x3EB0C6F7A0B5ED8D

/-- The bits of the `float64` constant `1e21`. -/
def bits1e21 : Float64 := 0x444B1AE4D6E2EF50

/-- The clean-up of the exponent in `floatEncoder.encode`: `e-09` becomes `e-9`. -/
def cleanExponent (b : List Char) : List Char :=
  let n := b.length
  if n ≥ 4 ∧ b.getD (n - 4) ' ' = 'e' ∧ (b.getD (n - 3) ' ' = '-' ∨ b.getD (n - 3) ' ' = '+')
      ∧ b.getD (n - 2) ' ' = '0' then
    b.take (n - 2) ++ [b.getD (n - 1) ' ']
  else b

/-- The method `floatEncoder.encode` for 64 bits: the text of a number, or the message of
the `UnsupportedValueError` for an infinity or a NaN. -/
def encodeFloat (f : Float64) : Except String String :=
  if IsInf f || IsNaN f then
    .error ("json: unsupported value: "
      ++ (if IsNaN f then "NaN" else if signBit f then "-Inf" else "+Inf"))
  else
    let abs := f % 2 ^ 63
    if abs ≠ 0 ∧ (abs < bits1em6 ∨ abs ≥ bits1e21) then
      .ok (String.mk (cleanExponent (fmtE (signBit f) (shortest f))))
    else .ok (String.mk (fmtF (signBit f) (shortest f)))

/-- One character of a string, as `appendString` writes it with HTML escaping. -/
def escapeChar (c : Char) : List Char :=
  if c = '\\' ∨ c = '"' then ['\\', c]
  else if c = '\x08' then ['\\', 'b']
  else if c = '\x0c' then ['\\', 'f']
  else if c = '\n' then ['\\', 'n']
  else if c = '\r' then ['\\', 'r']
  else if c = '\t' then ['\\', 't']
  else if c.toNat < 0x20 ∨ c = '<' ∨ c = '>' ∨ c = '&' then
    ['\\', 'u', '0', '0', hexDigit (c.toNat / 16), hexDigit (c.toNat % 16)]
  else if c.toNat = 0x2028 ∨ c.toNat = 0x2029 then
    ['\\', 'u', '2', '0', '2', hexDigit (c.toNat % 16)]
  else [c]

/-- The function `appendString` of `encoding/json` (with `escapeHTML`), on a string of
valid UTF-8. -/
def encodeString (s : String) : String :=
  String.mk ('"' :: s.toList.flatMap escapeChar ++ ['"'])

/-- The function `json.Marshal` on a `Metrics`: the fields in the order of the struct,
under the names of their tags. -/
def Marshal (m : Metrics) : Except String String :=
  match encodeFloat m.CPUUsage with
  | .error e => .error e
  | .ok cpu =>
    match encodeFloat m.MemoryUsage with
    | .error e => .error e
    | .ok mem =>
      match encodeFloat m.DiskUsage with
      | .error e => .error e
      | .ok disk =>
        .ok ("\x7b\"clientIP\":" ++ encodeString m.ClientIP ++ ",\"cpuUsage\":" ++ cpu
          ++ ",\"memoryUsage\":" ++ mem ++ ",\"diskUsage\":" ++ disk ++ "\x7d")

/-! ## `sendMetricsToServer` (main.go:103-126) -/

/-- A `*http.Response`, as far as the program uses it: the status code (never inspected)
and what `ioutil.ReadAll(resp.Body)` returns. -/
structure Response where
  StatusCode : Nat
  Body : Except String String

/-- The function `sendMetricsToServer`; `httpPost` is `http.Post`. The result is the
returned `error` (`none` for `nil`) and the effects of the call. -/
def sendMetricsToServer (httpPost : String → String → String → Except String Response)
    (metrics : Metrics) (serverURL : String) : Option String × List Event :=
  match Marshal metrics with
  | .error e => (some ("error al convertir métricas a JSON: " ++ e), [])
  | .ok jsonData =>
    match httpPost serverURL "application/json" jsonData with
    | .error e =>
      (some ("error al enviar solicitud POST: " ++ e),
        [Event.httpPost serverURL "application/json" jsonData])
    | .ok resp =>
      match resp.Body with
      | .error e =>
        (some ("error al leer respuesta del servidor: " ++ e),
          [Event.httpPost serverURL "application/json" jsonData, Event.bodyClose])
      | .ok body =>
        (none,
          [Event.httpPost serverURL "application/json" jsonData,
           Event.logPrintf "Respuesta del servidor: %s\n" [Arg.str body], Event.bodyClose])

/-! ## `main` (main.go:29-101) -/

/-- The struct `mem.VirtualMemoryStat`, as far as the program reads it. -/
structure VirtualMemoryStat where
  UsedPercent : Float64

/-- The struct `disk.UsageStat`, as far as the program reads it. -/
structure UsageStat where
  UsedPercent : Float64

/-- What the outside returns during one iteration of the loop: `cpu.Percent(0, false)`,
`mem.VirtualMemory()`, `disk.Usage("/")`, and the behaviour of `http.Post`. -/
structure Readings where
  cpuPercent : Except String (List Float64)
  virtualMemory : Except String VirtualMemoryStat
  diskUsage : Except String UsageStat
  httpPost : String → String → String → Except String Response

/-- What the outside returns during start-up: `os.LookupEnv`, `os.OpenFile` on the log
path, and `net.Interfaces()`. -/
structure Startup where
  lookupEnv : String → Option String
  openFile : String → Except String Unit
  netInterfaces : Except String (List Interface)

/-- The variables of `main` that the loop reads. -/
structure Config where
  serverURL : String
  clientIP : String
  intervalSeconds : Int
  deriving DecidableEq, Repr

/-- Lines 33-38 of `main`: the interval in seconds, and the warning if there is one. -/
def intervalConfig (lookupEnv : String → Option String) : Int × List Event :=
  let intervalSecondsStr := getEnv lookupEnv "INTERVAL_SECONDS" "20"
  match Atoi intervalSecondsStr with
  | .error e =>
    (20, [Event.logPrintf
      "Error al convertir INTERVAL_SECONDS: %v. Usando valor por defecto 20 segundos." [Arg.numError e]])
  | .ok intervalSeconds => (intervalSeconds, [])

/-- Lines 52-58 of `main`: the address that stamps every sample, and what is logged. -/
def resolveClientIP (netInterfaces : Except String (List Interface)) : String × List Event :=
  match getLocalIP netInterfaces with
  | (.error e, log) =>
    ("Unknown", log ++ [Event.logPrintf "Error al obtener la IP local: %v\n" [Arg.err e],
      Event.logPrintf "IP local: %s\n" [Arg.str "Unknown"]])
  | (.ok clientIP, log) => (clientIP, log ++ [Event.logPrintf "IP local: %s\n" [Arg.str clientIP]])

/-- Lines 30-58 of `main`: `none` when `main` returns before the loop. -/
def startup (w : Startup) : Option Config × List Event :=
  let serverURL := getEnv w.lookupEnv "SERVER_URL" "http://192.168.1.180/monitor/monitor.php"
  let logFilePath := getEnv w.lookupEnv "LOG_FILE_PATH" "/var/log/monitor/monitor.log"
  let interval := intervalConfig w.lookupEnv
  match w.openFile logFilePath with
  | .error e => (none, interval.2 ++ [Event.fmtPrintln "Error al abrir el archivo de log:" e])
  | .ok _ =>
    let resolved := resolveClientIP w.netInterfaces
    (some { serverURL := serverURL, clientIP := resolved.1, intervalSeconds := interval.1 },
      interval.2 ++ [Event.logSetOutput logFilePath,
        Event.logPrintln "Servicio Go de monitorización iniciado."] ++ resolved.2)

/-- Lines 62-88 of `main`: the `Metrics` value of one iteration, and what is logged. -/
def sample (clientIP : String) (r : Readings) : Metrics × List Event :=
  let metrics : Metrics := { ClientIP := clientIP }
  let afterCPU : Metrics × List Event :=
    match r.cpuPercent with
    | .error e => (metrics, [Event.logPrintf "Error al obtener uso de CPU: %v\n" [Arg.err e]])
    | .ok cpuPercents =>
      match cpuPercents with
      | first :: _ => ({ metrics with CPUUsage := first }, [])
      | [] => (metrics, [])
  let afterMem : Metrics × List Event :=
    match r.virtualMemory with
    | .error e =>
      (afterCPU.1, afterCPU.2 ++ [Event.logPrintf "Error al obtener uso de RAM: %v\n" [Arg.err e]])
    | .ok vmStat => ({ afterCPU.1 with MemoryUsage := vmStat.UsedPercent }, afterCPU.2)
  match r.diskUsage with
  | .error e =>
    (afterMem.1, afterMem.2 ++ [Event.logPrintf "Error al obtener uso de Disco: %v\n" [Arg.err e]])
  | .ok diskStat => ({ afterMem.1 with DiskUsage := diskStat.UsedPercent }, afterMem.2)

/-- The log line of main.go:92-96 for the result of `sendMetricsToServer`. -/
def reportSend (metrics : Metrics) : Option String → Event
  | some e => Event.logPrintf "Error al enviar métricas al servidor: %v\n" [Arg.err e]
  | none => Event.logPrintf "Métricas enviadas: %+v\n" [Arg.metrics metrics]

/-- One iteration of the loop of `main` (main.go:61-100). -/
def loopIteration (cfg : Config) (r : Readings) : List Event :=
  let sampled := sample cfg.clientIP r
  let sent := sendMetricsToServer r.httpPost sampled.1 cfg.serverURL
  sampled.2 ++ sent.2 ++ [reportSend sampled.1 sent.1,
    Event.sleep (sleepDuration cfg.intervalSeconds)]

/-- The first `n` iterations of the loop; `inputs i` is what the outside returns in
iteration `i`. -/
def runLoop (cfg : Config) (inputs : Nat → Readings) : Nat → List Event
  | 0 => []
  | n + 1 => runLoop cfg inputs n ++ loopIteration cfg (inputs n)

/-- The effects of `main` up to the end of iteration `n` of the loop. -/
def main (w : Startup) (inputs : Nat → Readings) (n : Nat) : List Event :=
  match startup w with
  | (none, events) => events
  | (some cfg, events) => events ++ runLoop cfg inputs n

/-! ## The words of the specification, for the address resolver -/

/-- An interface the resolver keeps: up, and not a loopback interface. -/
def keptInterface (iface : Interface) : Bool :=
  iface.Flags &&& FlagUp != 0 && iface.Flags &&& FlagLoopback == 0

/-- The addresses bound to an interface; none when the listing fails. -/
def boundIPs (iface : Interface) : List IP :=
  match iface.Addrs with
  | .ok addrs => addrs.map addrIP
  | .error _ => []

/-- A valid candidate address: IPv4, not loopback, not link-local. -/
def validCandidate (ip : IP) : Bool :=
  (IP.To4 ip).isSome && !IP.IsLoopback ip && !IP.IsLinkLocalUnicast ip

/-- The texts of the valid candidates of an enumeration, in enumeration order: interface
order, then address order within the interface. -/
def candidates (interfaces : List Interface) : List String :=
  interfaces.flatMap (fun iface =>
    if keptInterface iface then ((boundIPs iface).filter validCandidate).map IP.String else [])

/-- The first element of a list that satisfies `p` is `c`: `c` is in the list, satisfies
`p`, and nothing before it does. -/
def FirstSuch (p : String → Bool) (l : List String) (c : String) : Prop :=
  ∃ before after, l = before ++ c :: after ∧ p c = true ∧ ∀ x ∈ before, p x = false

/-! ## The words of the specification, for the body: a JSON object (RFC 8259) -/

/-- A hexadecimal digit, of either case. -/
def isHexChar (c : Char) : Bool :=
  ('0' ≤ c && c ≤ '9') || ('a' ≤ c && c ≤ 'f') || ('A' ≤ c && c ≤ 'F')

/-- Where a scan stands inside a JSON string: in plain text, after a backslash, or in the
four hexadecimal digits of a `\u` escape. -/
inductive StrState where
  | plain
  | escape
  | hex (remaining : Nat)
  deriving DecidableEq, Repr

/-- Scan of a JSON string from behind its opening quote: the raw text up to the closing
quote and the input behind it; `none` when the text is not a JSON string. -/
def scanStr : StrState → List Char → Option (List Char × List Char)
  | _, [] => none
  | .plain, c :: rest =>
    if c = '"' then some ([], rest)
    else if c = '\\' then (scanStr .escape rest).map (fun r => (c :: r.1, r.2))
    else if c.toNat < 0x20 then none
    else (scanStr .plain rest).map (fun r => (c :: r.1, r.2))
  | .escape, c :: rest =>
    if c = 'u' then (scanStr (.hex 4) rest).map (fun r => (c :: r.1, r.2))
    else if c ∈ ['"', '\\', '/', 'b', 'f', 'n', 'r', 't'] then
      (scanStr .plain rest).map (fun r => (c :: r.1, r.2))
    else none
  | .hex n, c :: rest =>
    if isHexChar c then
      (scanStr (if n ≤ 1 then .plain else .hex (n - 1)) rest).map (fun r => (c :: r.1, r.2))
    else none

/-- Where a scan stands inside a JSON number
`-? (0 | [1-9][0-9]*) (. [0-9]+)? ([eE] [+-]? [0-9]+)?`. -/
inductive NumState where
  | start
  | minus
  | zero
  | int
  | dot
  | frac
  | e
  | esign
  | exp
  deriving DecidableEq, Repr

/-- A decimal digit. -/
def isDigitChar (c : Char) : Bool := '0' ≤ c && c ≤ '9'

/-- The next state of the scan of a number, if the character continues the number. -/
def numStep : NumState → Char → Option NumState
  | .start, c => if c = '-' then some .minus else if c = '0' then some .zero
      else if isDigitChar c then some .int else none
  | .minus, c => if c = '0' then some .zero else if isDigitChar c then some .int else none
  | .zero, c => if c = '.' then some .dot else if c = 'e' ∨ c = 'E' then some .e else none
  | .int, c => if isDigitChar c then some .int else if c = '.' then some .dot
      else if c = 'e' ∨ c = 'E' then some .e else none
  | .dot, c => if isDigitChar c then some .frac else none
  | .frac, c => if isDigitChar c then some .frac else if c = 'e' ∨ c = 'E' then some .e else none
  | .e, c => if c = '+' ∨ c = '-' then some .esign else if isDigitChar c then some .exp else none
  | .esign, c => if isDigitChar c then some .exp else none
  | .exp, c => if isDigitChar c then some .exp else none

/-- The states in which a number may end. -/
def numAccepting : NumState → Bool
  | .zero => true
  | .int => true
  | .frac => true
  | .exp => true
  | _ => false

/-- Scan of the longest JSON number at the head of the input: the input behind it; `none`
when there is no number there. -/
def scanNum : NumState → List Char → Option (List Char)
  | st, [] => if numAccepting st then some [] else none
  | st, c :: rest =>
    match numStep st c with
    | some next => scanNum next rest
    | none => if numAccepting st then some (c :: rest) else none

/-- Scan of a value that is a string or a number: the input behind it. -/
def scanValue : List Char → Option (List Char)
  | [] => none
  | c :: rest => if c = '"' then (scanStr .plain rest).map (fun r => r.2) else scanNum .start (c :: rest)

/-- Scan of the members `"key":value` of an object, separated by commas and closed by a
brace at the end of the input: the keys in order. -/
def scanMembers : Nat → List Char → Option (List String)
  | 0, _ => none
  | fuel + 1, cs =>
    match cs with
    | [] => none
    | q :: rest =>
      if q = '"' then
        match scanStr .plain rest with
        | none => none
        | some (key, afterKey) =>
          match afterKey with
          | [] => none
          | colon :: afterColon =>
            if colon = ':' then
              match scanValue afterColon with
              | none => none
              | some [] => none
              | some (sep :: afterValue) =>
                if sep = ',' then (scanMembers fuel afterValue).map (fun ks => String.mk key :: ks)
                else if sep = '\x7d' ∧ afterValue = [] then some [String.mk key]
                else none
            else none
      else none

/-- The keys, in order, of a text that is one JSON object with string and number members
and nothing else; `none` for any other text. -/
def objectKeys (body : String) : Option (List String) :=
  match body.toList with
  | [] => none
  | c :: rest => if c = '\x7b' then scanMembers body.length rest else none

/-- The input `t` ends a number: its first character, if there is one, continues no
number. -/
def NumEnd (t : List Char) : Prop :=
  ∀ st, scanNum st t = if numAccepting st then some t else none

/-- What the proofs use of a `DecimalSlice`: digits only, no leading zero, the point at 0
when there is no digit, and a point within reach of three exponent digits. -/
structure GoodSlice (d : DecimalSlice) : Prop where
  digits : ∀ c ∈ d.d, isDigitChar c = true
  head : d.d.head? ≠ some '0'
  empty : d.d = [] → d.dp = 0
  lower : -400 ≤ d.dp
  upper : d.dp ≤ 800

/-! ## Inputs used as examples -/

/-- An enumeration in which the preferred address comes after other candidates: a
loopback interface, an interface whose listing fails, `eth0` with 10.0.0.7 and an IPv6
link-local address, and `wlan0` with 192.168.1.42 and 192.168.1.50. -/
def exampleInterfaces : List Interface :=
  [ { Name := "lo", Flags := 5, Addrs := .ok [Addr.IPNet [127, 0, 0, 1] [255, 0, 0, 0]] },
    { Name := "tun0", Flags := 1, Addrs := .error "no such device" },
    { Name := "eth0", Flags := 19, Addrs := .ok [Addr.IPNet [10, 0, 0, 7] [255, 0, 0, 0],
        Addr.IPNet [0xfe, 0x80, 0, 0, 0, 0, 0, 0, 0, 0, 0, 0, 0, 0, 0, 1] []] },
    { Name := "wlan0", Flags := 19, Addrs := .ok [Addr.IPNet [192, 168, 1, 42] [255, 255, 255, 0],
        Addr.IPAddr [192, 168, 1, 50] ""] } ]

/-- An enumeration without a valid candidate: a down interface, a loopback interface, an
interface whose listing fails, and an interface with only IPv6, loopback and link-local
addresses. -/
def exampleNoCandidates : List Interface :=
  [ { Name := "eth1", Flags := 18, Addrs := .ok [Addr.IPNet [10, 0, 0, 9] [255, 0, 0, 0]] },
    { Name := "lo", Flags := 5, Addrs := .ok [Addr.IPNet [127, 0, 0, 1] [255, 0, 0, 0]] },
    { Name := "tun0", Flags := 1, Addrs := .error "no such device" },
    { Name := "eth0", Flags := 19, Addrs := .ok [
        Addr.IPNet [0x20, 0x01, 0x0d, 0xb8, 0, 0, 0, 0, 0, 0, 0, 0, 0, 0, 0, 1] [],
        Addr.IPNet [127, 0, 0, 2] [255, 0, 0, 0],
        Addr.IPNet [169, 254, 3, 4] [255, 255, 0, 0],
        Addr.other "unix" "/tmp/sock"] } ]

/-- An enumeration with candidates, none of them on 192.168.1.x (192.168.10.5 shares only
a shorter prefix). -/
def exampleNoPreferred : List Interface :=
  [ { Name := "lo", Flags := 5, Addrs := .ok [Addr.IPNet [127, 0, 0, 1] [255, 0, 0, 0]] },
    { Name := "eth0", Flags := 19, Addrs := .ok [Addr.IPNet [169, 254, 3, 4] [255, 255, 0, 0],
        Addr.IPNet [192, 168, 10, 5] [255, 255, 255, 0], Addr.IPNet [10, 0, 0, 7] [255, 0, 0, 0]] } ]

/-- The warning of main.go:36. -/
def intervalWarning (e : NumError) : Event :=
  Event.logPrintf "Error al convertir INTERVAL_SECONDS: %v. Usando valor por defecto 20 segundos."
    [Arg.numError e]

/-- An environment in which only `INTERVAL_SECONDS` is set. -/
def envInterval (value : String) : String → Option String :=
  fun key => if key = "INTERVAL_SECONDS" then some value else none

/-- The start-up inputs of a host on which the log file opens, `INTERVAL_SECONDS` is
`value`, and `net.Interfaces` returns `netInterfaces`. -/
def exampleStartup (value : String) (netInterfaces : Except String (List Interface)) : Startup :=
  { lookupEnv := envInterval value, openFile := fun _ => .ok (), netInterfaces := netInterfaces }

/-- The configuration the start-up yields for `INTERVAL_SECONDS=10000000000` on a host
without interfaces. -/
def configLargeInterval : Config :=
  { serverURL := "http://192.168.1.180/monitor/monitor.php", clientIP := "127.0.0.1",
    intervalSeconds := 10000000000 }

/-- The log line of main.go:55 for a failed enumeration. -/
def enumerationWarning (e : String) : Event :=
  Event.logPrintf "Error al obtener la IP local: %v\n"
    [Arg.err ("error al obtener interfaces de red: " ++ e)]

/-- Readings in which only `mem.VirtualMemory` fails, `cpu.Percent` returns an empty
slice without error, and the disk is 50% used (bits 0x4049000000000000). -/
def readingsEmptyCPU : Readings :=
  { cpuPercent := .ok [], virtualMemory := .error "open /proc/meminfo: permission denied",
    diskUsage := .ok { UsedPercent := 0x4049000000000000 },
    httpPost := fun _ _ _ => .ok { StatusCode := 200, Body := .ok "OK" } }

/-- Readings in which only `mem.VirtualMemory` fails; the CPU is at 12.5% and the disk at
88%. -/
def readingsMemoryFails : Readings :=
  { cpuPercent := .ok [0x4029000000000000],
    virtualMemory := .error "open /proc/meminfo: permission denied",
    diskUsage := .ok { UsedPercent := 0x4056000000000000 },
    httpPost := fun _ _ _ => .ok { StatusCode := 500, Body := .ok "" } }

/-- A sample whose CPU field is a NaN (bits 0x7FF8000000000000). -/
def metricsNaN : Metrics := { ClientIP := "10.0.0.5", CPUUsage := 0x7FF8000000000000 }

/-- An `http.Post` that fails: nothing listens at the endpoint. -/
def postRefused : String → String → String → Except String Response :=
  fun _ _ _ => .error "dial tcp 192.168.1.180:80: connect: connection refused"

/-- The sample of the scenario: 12.5, 47.3 and 88.0 are the `float64` values with the bit
patterns 0x4029000000000000, 0x4047A66666666666 and 0x4056000000000000. -/
def scenarioMetrics : Metrics :=
  { ClientIP := "192.168.1.42", CPUUsage := 0x4029000000000000,
    MemoryUsage := 0x4047A66666666666, DiskUsage := 0x4056000000000000 }

/-! ## Address resolver: the loops collect the valid candidates in enumeration order -/

theorem validCandidate_length (ip : IP) (h : validCandidate ip = true) : ip.length ≠ 0 := by
  intro h0
  have hnil : ip = [] := List.length_eq_zero.mp h0
  subst hnil
  simp [validCandidate, IP.To4, IPv4len, IPv6len] at h

theorem isValidIP_eq (ip : IP) : isValidIP ip = validCandidate ip := by
  cases hv : validCandidate ip with
  | true =>
    have hlen := validCandidate_length ip hv
    simp only [validCandidate, Bool.and_eq_true] at hv
    simp [isValidIP, hv.1.1, hv.1.2, hv.2, hlen]
  | false =>
    simp only [validCandidate] at hv
    simp only [isValidIP, Bool.and_assoc, hv, Bool.and_false]

theorem scanAddrs_validIPs (name : String) (addrs : List Addr) (st : Scan) :
    (addrs.foldl (scanAddr name) st).validIPs
      = st.validIPs ++ ((addrs.map addrIP).filter validCandidate).map IP.String := by
  induction addrs generalizing st with
  | nil => simp
  | cons a rest ih =>
    rw [List.foldl_cons, ih]
    by_cases hv : validCandidate (addrIP a) = true
    · simp [scanAddr, isValidIP_eq, hv]
    · simp [scanAddr, isValidIP_eq, hv]

theorem keptInterface_iff (iface : Interface) :
    keptInterface iface = true ↔ ¬ (iface.Flags &&& FlagUp = 0 ∨ iface.Flags &&& FlagLoopback ≠ 0) := by
  simp [keptInterface, not_or]

theorem scanInterface_validIPs (st : Scan) (iface : Interface) :
    (scanInterface st iface).validIPs = st.validIPs ++ candidates [iface] := by
  unfold scanInterface candidates
  by_cases hk : keptInterface iface = true
  · have hc := (keptInterface_iff iface).mp hk
    rw [if_neg hc]
    cases ha : iface.Addrs with
    | error e => simp [boundIPs, ha]
    | ok addrs => simp [boundIPs, ha, hk, scanAddrs_validIPs]
  · have hc : iface.Flags &&& FlagUp = 0 ∨ iface.Flags &&& FlagLoopback ≠ 0 := by
      by_contra hcon
      exact hk ((keptInterface_iff iface).mpr hcon)
    rw [if_pos hc]
    simp [hk]

theorem foldl_scanInterface_validIPs (interfaces : List Interface) (st : Scan) :
    (interfaces.foldl scanInterface st).validIPs = st.validIPs ++ candidates interfaces := by
  induction interfaces generalizing st with
  | nil => simp [candidates]
  | cons iface rest ih =>
    rw [List.foldl_cons, ih, scanInterface_validIPs]
    simp [candidates, List.append_assoc]

theorem scanAll_validIPs (interfaces : List Interface) :
    (scanAll interfaces).validIPs = candidates interfaces := by
  simp [scanAll, foldl_scanInterface_validIPs]

theorem firstWithPrefix_some (pre : String) (l : List String) (c : String)
    (h : firstWithPrefix pre l = some c) : FirstSuch (fun s => HasPrefix s pre) l c := by
  induction l with
  | nil => simp [firstWithPrefix] at h
  | cons x rest ih =>
    by_cases hx : HasPrefix x pre = true
    · simp only [firstWithPrefix, hx, if_true, Option.some.injEq] at h
      subst h
      exact ⟨[], rest, rfl, hx, by simp⟩
    · simp only [firstWithPrefix, hx] at h
      obtain ⟨before, after, hl, hc, hb⟩ := ih h
      refine ⟨x :: before, after, by simp [hl], hc, ?_⟩
      intro y hy
      rcases List.mem_cons.mp hy with rfl | hy
      · simpa using hx
      · exact hb y hy

theorem firstWithPrefix_none (pre : String) (l : List String) :
    firstWithPrefix pre l = none ↔ ∀ x ∈ l, HasPrefix x pre = false := by
  induction l with
  | nil => simp [firstWithPrefix]
  | cons x rest ih =>
    by_cases hx : HasPrefix x pre = true
    · simp [firstWithPrefix, hx]
    · simp [firstWithPrefix, hx, ih]

/-- C1: when some valid candidate (an IPv4, non-loopback, non-link-local address of an
interface that is up and not loopback) has a text starting with "192.168.1.", `getLocalIP`
returns, without error, the first such candidate in enumeration order: nothing before it
in the enumeration has the prefix, whatever candidates without the prefix come earlier. -/
theorem getLocalIP_returns_first_preferred (interfaces : List Interface)
    (h : ∃ c ∈ candidates interfaces, HasPrefix c "192.168.1." = true) :
    ∃ c, FirstSuch (fun s => HasPrefix s "192.168.1.") (candidates interfaces) c
      ∧ (getLocalIP (.ok interfaces)).1 = .ok c := by
  obtain ⟨c0, hc0, hp0⟩ := h
  cases hl : candidates interfaces with
  | nil => simp [hl] at hc0
  | cons first rest =>
    cases hf : firstWithPrefix "192.168.1." (first :: rest) with
    | none =>
      have := (firstWithPrefix_none _ _).mp hf c0 (hl ▸ hc0)
      simp [hp0] at this
    | some c =>
      refine ⟨c, firstWithPrefix_some _ _ _ hf, ?_⟩
      simp only [getLocalIP, scanAll_validIPs, hl, hf]

theorem candidates_exampleInterfaces :
    candidates exampleInterfaces = ["10.0.0.7", "192.168.1.42", "192.168.1.50"] := by rfl

/-- Witness of C1: in `exampleInterfaces` the candidate 10.0.0.7 comes first, and the
result is 192.168.1.42. -/
theorem getLocalIP_returns_first_preferred_witness :
    (getLocalIP (.ok exampleInterfaces)).1 = .ok "192.168.1.42"
      ∧ ∃ c, FirstSuch (fun s => HasPrefix s "192.168.1.") (candidates exampleInterfaces) c
        ∧ (getLocalIP (.ok exampleInterfaces)).1 = .ok c :=
  ⟨by rfl, getLocalIP_returns_first_preferred exampleInterfaces
    ⟨"192.168.1.42", by rw [candidates_exampleInterfaces]; decide, by decide⟩⟩

/-- C2: when the enumeration yields no valid candidate, `getLocalIP` returns the string
"127.0.0.1" and no error. -/
theorem getLocalIP_fallback_when_no_candidate (interfaces : List Interface)
    (h : candidates interfaces = []) :
    (getLocalIP (.ok interfaces)).1 = .ok "127.0.0.1" := by
  simp only [getLocalIP, scanAll_validIPs, h]

/-- No candidate comes from an enumeration in which every interface is down, or is a
loopback interface, or fails to list its addresses, or has no IPv4 address that is
neither loopback nor link-local; the empty enumeration is one of them. -/
theorem candidates_eq_nil (interfaces : List Interface)
    (h : ∀ iface ∈ interfaces, iface.Flags &&& FlagUp = 0 ∨ iface.Flags &&& FlagLoopback ≠ 0
      ∨ (∃ e, iface.Addrs = .error e)
      ∨ ∀ ip ∈ boundIPs iface, (IP.To4 ip = none ∨ IP.IsLoopback ip = true
          ∨ IP.IsLinkLocalUnicast ip = true)) :
    candidates interfaces = [] := by
  simp only [candidates, List.flatMap_eq_nil_iff]
  intro iface hi
  by_cases hk : keptInterface iface = true
  · rw [if_pos hk]
    have hc := (keptInterface_iff iface).mp hk
    rcases h iface hi with h1 | h2 | ⟨e, he⟩ | h4
    · exact absurd (Or.inl h1) hc
    · exact absurd (Or.inr h2) hc
    · simp [boundIPs, he]
    · simp only [List.map_eq_nil_iff, List.filter_eq_nil_iff]
      intro ip hip
      rcases h4 ip hip with h | h | h <;> simp [validCandidate, h]
  · rw [if_neg hk]

/-- Witness of C2: `exampleNoCandidates` and the empty enumeration both give the
fallback. -/
theorem getLocalIP_fallback_when_no_candidate_witness :
    candidates exampleNoCandidates = []
      ∧ (getLocalIP (.ok exampleNoCandidates)).1 = .ok "127.0.0.1"
      ∧ (getLocalIP (.ok [])).1 = .ok "127.0.0.1" :=
  ⟨by rfl, getLocalIP_fallback_when_no_candidate exampleNoCandidates (by rfl),
    getLocalIP_fallback_when_no_candidate [] (by rfl)⟩

/-- C3: when the enumeration yields at least one valid candidate and none of them has a
text starting with "192.168.1.", `getLocalIP` returns, without error, the first valid
candidate in enumeration order. -/
theorem getLocalIP_returns_first_candidate (interfaces : List Interface)
    (hsome : candidates interfaces ≠ [])
    (hnone : ∀ c ∈ candidates interfaces, HasPrefix c "192.168.1." = false) :
    ∃ first rest, candidates interfaces = first :: rest
      ∧ (getLocalIP (.ok interfaces)).1 = .ok first := by
  cases hl : candidates interfaces with
  | nil => exact absurd hl hsome
  | cons first rest =>
    refine ⟨first, rest, rfl, ?_⟩
    have hf : firstWithPrefix "192.168.1." (first :: rest) = none :=
      (firstWithPrefix_none _ _).mpr (hl ▸ hnone)
    simp only [getLocalIP, scanAll_validIPs, hl, hf]

theorem candidates_exampleNoPreferred :
    candidates exampleNoPreferred = ["192.168.10.5", "10.0.0.7"] := by rfl

/-- Witness of C3: `exampleNoPreferred` gives 192.168.10.5, its first candidate. -/
theorem getLocalIP_returns_first_candidate_witness :
    (getLocalIP (.ok exampleNoPreferred)).1 = .ok "192.168.10.5"
      ∧ ∃ first rest, candidates exampleNoPreferred = first :: rest
        ∧ (getLocalIP (.ok exampleNoPreferred)).1 = .ok first :=
  ⟨by rfl, getLocalIP_returns_first_candidate exampleNoPreferred
    (by rw [candidates_exampleNoPreferred]; decide)
    (by rw [candidates_exampleNoPreferred]; decide)⟩

/-! ## Address resolver: where every collected candidate comes from -/

theorem To4_length (ip p4 : IP) (h : IP.To4 ip = some p4) :
    p4.length = 4 ∧ (ip.length = 4 ∨ ip.length = 16) := by
  unfold IP.To4 at h
  split at h
  · rename_i h4
    simp only [Option.some.injEq] at h
    subst h
    exact ⟨h4, Or.inl h4⟩
  · split at h
    · rename_i h16
      simp only [Option.some.injEq] at h
      subst h
      have hl : ip.length = 16 := h16.1
      refine ⟨?_, Or.inr hl⟩
      simp [List.length_take, List.length_drop, hl]
    · simp at h

theorem String_of_To4 (ip p4 : IP) (h : IP.To4 ip = some p4) : IP.String ip = dotted p4 := by
  have hl := (To4_length ip p4 h).2
  have h0 : ip.length ≠ 0 := by omega
  have h1 : ¬ (ip.length ≠ IPv4len ∧ ip.length ≠ IPv6len) := by
    simp only [IPv4len, IPv6len]
    omega
  simp only [IP.String, if_neg h0, if_neg h1, h]

theorem validCandidate_spec (ip : IP) (h : validCandidate ip = true) :
    ∃ p4, IP.To4 ip = some p4 ∧ p4.length = 4 ∧ IP.String ip = dotted p4
      ∧ IP.IsLoopback ip = false ∧ IP.IsLinkLocalUnicast ip = false
      ∧ p4.getD 0 0 ≠ 127 ∧ ¬ (p4.getD 0 0 = 169 ∧ p4.getD 1 0 = 254) := by
  simp only [validCandidate, Bool.and_eq_true, Bool.not_eq_true', Option.isSome_iff_exists] at h
  obtain ⟨⟨⟨p4, hp4⟩, hlo⟩, hll⟩ := h
  refine ⟨p4, hp4, (To4_length ip p4 hp4).1, String_of_To4 ip p4 hp4, hlo, hll, ?_, ?_⟩
  · simpa [IP.IsLoopback, hp4] using hlo
  · simpa [IP.IsLinkLocalUnicast, hp4] using hll

/-- C9: every text `getLocalIP` collects in `validIPs` is the dotted-decimal text of an
IPv4 address (`To4` is not nil) that is neither loopback (first byte 127) nor link-local
(169.254.x.x), taken from the address list of an interface that is up, is not a loopback
interface and listed its addresses without error; and the result of `getLocalIP` is either
the fallback "127.0.0.1" or one of the collected texts. -/
theorem getLocalIP_collects_only_valid (interfaces : List Interface) :
    (∀ s ∈ (scanAll interfaces).validIPs,
      ∃ iface ∈ interfaces, ∃ addrs, iface.Addrs = .ok addrs
        ∧ iface.Flags &&& FlagUp ≠ 0 ∧ iface.Flags &&& FlagLoopback = 0
        ∧ ∃ addr ∈ addrs, ∃ p4, IP.To4 (addrIP addr) = some p4 ∧ p4.length = 4
          ∧ s = IP.String (addrIP addr) ∧ s = dotted p4
          ∧ IP.IsLoopback (addrIP addr) = false ∧ IP.IsLinkLocalUnicast (addrIP addr) = false
          ∧ p4.getD 0 0 ≠ 127 ∧ ¬ (p4.getD 0 0 = 169 ∧ p4.getD 1 0 = 254))
    ∧ (∀ (st : Scan) (iface : Interface),
        (iface.Flags &&& FlagUp = 0 ∨ iface.Flags &&& FlagLoopback ≠ 0
          ∨ ∃ e, iface.Addrs = .error e) →
        (scanInterface st iface).validIPs = st.validIPs)
    ∧ ∃ r, (getLocalIP (.ok interfaces)).1 = .ok r
        ∧ (r = "127.0.0.1" ∨ r ∈ (scanAll interfaces).validIPs) := by
  refine ⟨?_, ?_, ?_⟩
  · intro s hs
    rw [scanAll_validIPs] at hs
    simp only [candidates, List.mem_flatMap] at hs
    obtain ⟨iface, hi, hs⟩ := hs
    by_cases hk : keptInterface iface = true
    · rw [if_pos hk] at hs
      have hflags : iface.Flags &&& FlagUp ≠ 0 ∧ iface.Flags &&& FlagLoopback = 0 := by
        simpa [keptInterface] using hk
      cases ha : iface.Addrs with
      | error e => simp [boundIPs, ha] at hs
      | ok addrs =>
        simp only [boundIPs, ha, List.mem_map, List.mem_filter] at hs
        obtain ⟨ip, ⟨⟨addr, haddr, rfl⟩, hv⟩, rfl⟩ := hs
        obtain ⟨p4, h1, h2, h3, h4, h5, h6, h7⟩ := validCandidate_spec _ hv
        exact ⟨iface, hi, addrs, ha, hflags.1, hflags.2, addr, haddr, p4, h1, h2, rfl, h3,
          h4, h5, h6, h7⟩
    · rw [if_neg hk] at hs
      simp at hs
  · intro st iface h
    unfold scanInterface
    by_cases hc : iface.Flags &&& FlagUp = 0 ∨ iface.Flags &&& FlagLoopback ≠ 0
    · rw [if_pos hc]
    · rw [if_neg hc]
      rcases h with h | h | ⟨e, he⟩
      · exact absurd (Or.inl h) hc
      · exact absurd (Or.inr h) hc
      · simp [he]
  · cases hl : (scanAll interfaces).validIPs with
    | nil => exact ⟨"127.0.0.1", by simp only [getLocalIP, hl], Or.inl rfl⟩
    | cons first rest =>
      cases hf : firstWithPrefix "192.168.1." (first :: rest) with
      | none => exact ⟨first, by simp only [getLocalIP, hl, hf], Or.inr (by simp)⟩
      | some c =>
        obtain ⟨before, after, hb, -, -⟩ := firstWithPrefix_some _ _ _ hf
        exact ⟨c, by simp only [getLocalIP, hl, hf], Or.inr (by rw [hb]; simp)⟩

/-! ## Start-up: the sampling interval -/

theorem startup_interval (w : Startup) (cfg : Config) (events : List Event)
    (h : startup w = (some cfg, events)) :
    cfg.intervalSeconds = (intervalConfig w.lookupEnv).1
      ∧ ∃ rest, events = (intervalConfig w.lookupEnv).2 ++ rest := by
  unfold startup at h
  cases ho : w.openFile (getEnv w.lookupEnv "LOG_FILE_PATH" "/var/log/monitor/monitor.log") with
  | error e => simp [ho] at h
  | ok u =>
    simp only [ho, Prod.mk.injEq, Option.some.injEq] at h
    obtain ⟨hc, he⟩ := h
    subst hc
    exact ⟨rfl, _, by rw [← he, List.append_assoc]⟩

theorem loopIteration_getLast (cfg : Config) (r : Readings) :
    (loopIteration cfg r).getLast? = some (Event.sleep (sleepDuration cfg.intervalSeconds)) := by
  simp [loopIteration, List.getLast?_append, List.getLast?_cons_cons]

/-- C5: when `INTERVAL_SECONDS` is set to a string on which `strconv.Atoi` fails (the
empty string is one), the interval is 20 seconds and the warning of main.go:36 is logged;
when the variable is unset the interval is 20 as well, without a warning. The loop then
runs with that interval: it is the `intervalSeconds` of the start-up, the warning is
among the start-up events, and every iteration ends with a sleep of 20 * 10^9 ns. -/
theorem interval_defaults_to_20 :
    (∀ (lookupEnv : String → Option String) (s : String) (e : NumError),
      lookupEnv "INTERVAL_SECONDS" = some s → Atoi s = .error e →
        intervalConfig lookupEnv = (20, [intervalWarning e]))
    ∧ (∃ e, Atoi "" = .error e)
    ∧ (∀ (lookupEnv : String → Option String), lookupEnv "INTERVAL_SECONDS" = none →
        intervalConfig lookupEnv = (20, []))
    ∧ (∀ (w : Startup) (cfg : Config) (events : List Event), startup w = (some cfg, events) →
        cfg.intervalSeconds = (intervalConfig w.lookupEnv).1
          ∧ (∃ rest, events = (intervalConfig w.lookupEnv).2 ++ rest)
          ∧ ∀ r, (loopIteration cfg r).getLast?
              = some (Event.sleep (sleepDuration (intervalConfig w.lookupEnv).1)))
    ∧ sleepDuration 20 = 20 * 1000000000 := by
  refine ⟨?_, ⟨_, rfl⟩, ?_, ?_, by decide⟩
  · intro lookupEnv s e hs he
    simp only [intervalConfig, getEnv, hs, he, intervalWarning]
  · intro lookupEnv hs
    have h20 : Atoi "20" = .ok 20 := by rfl
    simp only [intervalConfig, getEnv, hs, h20]
  · intro w cfg events h
    obtain ⟨h1, h2⟩ := startup_interval w cfg events h
    exact ⟨h1, h2, fun r => by rw [loopIteration_getLast, h1]⟩

/-- Witness of C5: with `INTERVAL_SECONDS=20s` the interval is 20 and the warning carries
the syntax error of `Atoi`. -/
theorem interval_defaults_to_20_witness :
    intervalConfig (envInterval "20s")
      = (20, [intervalWarning { Func := "Atoi", Num := "20s", Err := "invalid syntax" }]) :=
  interval_defaults_to_20.1 (envInterval "20s") "20s" _ (by rfl) (by rfl)

/-! ## The sleep of an iteration -/

theorem wrapInt64_eq_self (x : Int) (h : -2 ^ 63 ≤ x ∧ x < 2 ^ 63) : wrapInt64 x = x := by
  unfold wrapInt64
  rw [Int.emod_eq_of_lt (by omega) (by omega)]
  omega

theorem wrapInt64_range (x : Int) : -2 ^ 63 ≤ wrapInt64 x ∧ wrapInt64 x < 2 ^ 63 := by
  unfold wrapInt64
  have h1 := Int.emod_nonneg (x + 2 ^ 63) (show (2 : Int) ^ 64 ≠ 0 by norm_num)
  have h2 := Int.emod_lt_of_pos (x + 2 ^ 63) (show (0 : Int) < 2 ^ 64 by norm_num)
  omega

/-- C10, a defect of the code: `INTERVAL_SECONDS=10000000000` parses as the integer
10^10, the start-up keeps it as `intervalSeconds`, and the duration every iteration passes
to `time.Sleep` is the wrapped product -8446744073709551616 ns: a negative duration, not
the 10^10 seconds that the comment of main.go:98 ("Esperar el intervalo definido")
promises. -/
theorem sleep_wraps_for_large_interval :
    Atoi "10000000000" = .ok 10000000000
      ∧ intervalConfig (envInterval "10000000000") = (10000000000, [])
      ∧ (startup (exampleStartup "10000000000" (.ok []))).1 = some configLargeInterval
      ∧ (∀ r, (loopIteration configLargeInterval r).getLast?
          = some (Event.sleep (-8446744073709551616)))
      ∧ sleepDuration 10000000000 = -8446744073709551616
      ∧ sleepDuration 10000000000 ≠ 10000000000 * 1000000000
      ∧ sleepDuration 10000000000 < 0 :=
  ⟨by rfl, by rfl, by rfl, fun r => by rw [loopIteration_getLast]; rfl, by decide, by decide,
    by decide⟩

/-- Where the code does wait the defined interval: when `INTERVAL_SECONDS` parses as an
integer `n` with -9223372036 ≤ n ≤ 9223372036, the loop runs with `intervalSeconds = n`
and every iteration ends with `time.Sleep` of exactly n * 10^9 ns, without wrap-around. -/
theorem sleep_is_interval_within_range (w : Startup) (s : String) (n : Int)
    (hset : w.lookupEnv "INTERVAL_SECONDS" = some s) (hparse : Atoi s = .ok n)
    (hrange : -9223372036 ≤ n ∧ n ≤ 9223372036) :
    (intervalConfig w.lookupEnv).1 = n
      ∧ sleepDuration n = n * 1000000000
      ∧ ∀ cfg events, startup w = (some cfg, events) →
          ∀ r, (loopIteration cfg r).getLast? = some (Event.sleep (n * 1000000000)) := by
  have hcfg : (intervalConfig w.lookupEnv).1 = n := by
    simp only [intervalConfig, getEnv, hset, hparse]
  have hsleep : sleepDuration n = n * 1000000000 := by
    unfold sleepDuration Second
    apply wrapInt64_eq_self
    constructor <;> omega
  refine ⟨hcfg, hsleep, ?_⟩
  intro cfg events h r
  rw [loopIteration_getLast, (startup_interval w cfg events h).1, hcfg, hsleep]

/-- The largest interval that does not wrap, `INTERVAL_SECONDS=9223372036`. -/
theorem sleep_is_interval_within_range_witness :
    (intervalConfig (envInterval "9223372036")).1 = 9223372036
      ∧ sleepDuration 9223372036 = 9223372036 * 1000000000
      ∧ ∀ cfg events, startup (exampleStartup "9223372036" (.ok [])) = (some cfg, events) →
          ∀ r, (loopIteration cfg r).getLast? = some (Event.sleep (9223372036 * 1000000000)) :=
  sleep_is_interval_within_range (exampleStartup "9223372036" (.ok [])) "9223372036" 9223372036
    (by rfl) (by rfl) (by decide)

/-- Outside that range the product always wraps: the duration is never `n` seconds. -/
theorem sleepDuration_ne_outside_range (n : Int) (h : n < -9223372036 ∨ 9223372036 < n) :
    sleepDuration n ≠ n * 1000000000 := by
  intro heq
  have hr := wrapInt64_range (n * Second)
  unfold sleepDuration at heq
  rw [heq] at hr
  omega

/-! ## Start-up: the address when the enumeration fails -/

/-- C6, refuted as stated: when `net.Interfaces` fails, the start-up succeeds and the
address of the configuration, which stamps every sample, is "Unknown", not "127.0.0.1". -/
theorem enumeration_failure_address_is_not_loopback :
    (startup (exampleStartup "20" (.error "permission denied"))).1
        = some { serverURL := "http://192.168.1.180/monitor/monitor.php",
                 clientIP := "Unknown", intervalSeconds := 20 }
      ∧ (getLocalIP (.error "permission denied")).1
        = .error "error al obtener interfaces de red: permission denied"
      ∧ (resolveClientIP (.error "permission denied")).1 ≠ "127.0.0.1" :=
  ⟨by rfl, by rfl, by decide⟩

/-- C6, amended: when `net.Interfaces` fails (and the log file opens), `main` does not
stop: the start-up yields a configuration whose address is "Unknown", the failure is
logged, the loop is entered (the effects of `main` are those of the start-up followed by
those of the iterations), and every sample of the loop is stamped "Unknown". -/
theorem enumeration_failure_gives_unknown (w : Startup) (e : String) (u : Unit)
    (hfail : w.netInterfaces = .error e)
    (hopen : w.openFile (getEnv w.lookupEnv "LOG_FILE_PATH" "/var/log/monitor/monitor.log") = .ok u) :
    ∃ cfg events, startup w = (some cfg, events)
      ∧ cfg.clientIP = "Unknown"
      ∧ enumerationWarning e ∈ events
      ∧ (∀ inputs n, main w inputs n = events ++ runLoop cfg inputs n)
      ∧ ∀ r, (sample cfg.clientIP r).1.ClientIP = "Unknown" := by
  have hres : resolveClientIP w.netInterfaces
      = ("Unknown", [enumerationWarning e, Event.logPrintf "IP local: %s\n" [Arg.str "Unknown"]]) := by
    simp [resolveClientIP, getLocalIP, hfail, enumerationWarning]
  have hstart : startup w = (some
      { serverURL := (getEnv w.lookupEnv "SERVER_URL" "http://192.168.1.180/monitor/monitor.php")
        clientIP := "Unknown"
        intervalSeconds := (intervalConfig w.lookupEnv).1 },
      (intervalConfig w.lookupEnv).2 ++ [Event.logSetOutput
        (getEnv w.lookupEnv "LOG_FILE_PATH" "/var/log/monitor/monitor.log"),
        Event.logPrintln "Servicio Go de monitorización iniciado."]
        ++ [enumerationWarning e, Event.logPrintf "IP local: %s\n" [Arg.str "Unknown"]]) := by
    simp only [startup, hopen, hres]
  refine ⟨_, _, hstart, rfl, by simp, ?_, ?_⟩
  · intro inputs n
    simp only [main, hstart]
  · intro r
    simp only [sample]
    cases r.cpuPercent with
    | error e1 => cases r.virtualMemory <;> cases r.diskUsage <;> rfl
    | ok l => cases l <;> cases r.virtualMemory <;> cases r.diskUsage <;> rfl

/-- Witness of C6 amended. -/
theorem enumeration_failure_gives_unknown_witness :
    ∃ cfg events, startup (exampleStartup "20" (.error "permission denied")) = (some cfg, events)
      ∧ cfg.clientIP = "Unknown"
      ∧ enumerationWarning "permission denied" ∈ events
      ∧ (∀ inputs n, main (exampleStartup "20" (.error "permission denied")) inputs n
          = events ++ runLoop cfg inputs n)
      ∧ ∀ r, (sample cfg.clientIP r).1.ClientIP = "Unknown" :=
  enumeration_failure_gives_unknown (exampleStartup "20" (.error "permission denied"))
    "permission denied" () (by rfl) (by rfl)

/-! ## One iteration: the sample and its publication -/

theorem sample_fields (clientIP : String) (r : Readings) :
    (sample clientIP r).1 =
      { ClientIP := clientIP
        CPUUsage := (match r.cpuPercent with
          | .ok (first :: _) => first
          | _ => 0)
        MemoryUsage := (match r.virtualMemory with
          | .ok vmStat => vmStat.UsedPercent
          | .error _ => 0)
        DiskUsage := (match r.diskUsage with
          | .ok diskStat => diskStat.UsedPercent
          | .error _ => 0) } := by
  simp only [sample]
  cases r.cpuPercent with
  | error e1 => cases r.virtualMemory <;> cases r.diskUsage <;> rfl
  | ok l => cases l <;> cases r.virtualMemory <;> cases r.diskUsage <;> rfl

/-- C4, refuted as stated: with `readingsEmptyCPU` exactly one measurement call fails
(memory), yet the sample has 0 in the CPU field as well as in the memory field, and the
CPU field is none of the values `cpu.Percent` returned. -/
theorem sample_zero_outside_failed_field :
    (∃ e, readingsEmptyCPU.virtualMemory = .error e)
      ∧ (∃ vs, readingsEmptyCPU.cpuPercent = .ok vs
          ∧ (sample "10.0.0.5" readingsEmptyCPU).1.CPUUsage ∉ vs)
      ∧ (∃ st, readingsEmptyCPU.diskUsage = .ok st)
      ∧ (sample "10.0.0.5" readingsEmptyCPU).1
          = { ClientIP := "10.0.0.5", CPUUsage := 0, MemoryUsage := 0,
              DiskUsage := 0x4049000000000000 } :=
  ⟨⟨_, rfl⟩, ⟨[], rfl, by simp⟩, ⟨_, rfl⟩, by rfl⟩

/-- C4, amended: in every iteration, for every outcome of the three measurements, each
field of the sample is decided by its own measurement alone: `CPUUsage` is the first
element of the slice `cpu.Percent` returns, and 0 when the call fails or the slice is
empty; `MemoryUsage` and `DiskUsage` are the `UsedPercent` of their call, and 0 when it
fails; `ClientIP` is the cached address; and `sendMetricsToServer` is called with that
sample in the iteration, whatever failed. -/
theorem sample_fields_independent (cfg : Config) (r : Readings) :
    (sample cfg.clientIP r).1.ClientIP = cfg.clientIP
      ∧ (∀ e, r.cpuPercent = .error e → (sample cfg.clientIP r).1.CPUUsage = 0)
      ∧ (r.cpuPercent = .ok [] → (sample cfg.clientIP r).1.CPUUsage = 0)
      ∧ (∀ first rest, r.cpuPercent = .ok (first :: rest) →
          (sample cfg.clientIP r).1.CPUUsage = first)
      ∧ (∀ e, r.virtualMemory = .error e → (sample cfg.clientIP r).1.MemoryUsage = 0)
      ∧ (∀ vmStat, r.virtualMemory = .ok vmStat →
          (sample cfg.clientIP r).1.MemoryUsage = vmStat.UsedPercent)
      ∧ (∀ e, r.diskUsage = .error e → (sample cfg.clientIP r).1.DiskUsage = 0)
      ∧ (∀ diskStat, r.diskUsage = .ok diskStat →
          (sample cfg.clientIP r).1.DiskUsage = diskStat.UsedPercent)
      ∧ loopIteration cfg r
          = (sample cfg.clientIP r).2
            ++ (sendMetricsToServer r.httpPost (sample cfg.clientIP r).1 cfg.serverURL).2
            ++ [reportSend (sample cfg.clientIP r).1
                  (sendMetricsToServer r.httpPost (sample cfg.clientIP r).1 cfg.serverURL).1,
                Event.sleep (sleepDuration cfg.intervalSeconds)] := by
  refine ⟨?_, ?_, ?_, ?_, ?_, ?_, ?_, ?_, rfl⟩
  · rw [sample_fields]
  · intro e h
    rw [sample_fields]
    simp only [h]
  · intro h
    rw [sample_fields]
    simp only [h]
  · intro first rest h
    rw [sample_fields]
    simp only [h]
  · intro e h
    rw [sample_fields]
    simp only [h]
  · intro vmStat h
    rw [sample_fields]
    simp only [h]
  · intro e h
    rw [sample_fields]
    simp only [h]
  · intro diskStat h
    rw [sample_fields]
    simp only [h]

/-- Witness of C4 amended: with `readingsMemoryFails` the memory field is 0, the CPU and
disk fields hold the measured values, and the sample is posted. -/
theorem sample_fields_independent_witness :
    (sample "10.0.0.5" readingsMemoryFails).1.CPUUsage = 0x4029000000000000
      ∧ (sample "10.0.0.5" readingsMemoryFails).1.MemoryUsage = 0
      ∧ (sample "10.0.0.5" readingsMemoryFails).1.DiskUsage = 0x4056000000000000
      ∧ (sample "10.0.0.5" readingsMemoryFails).1.ClientIP = "10.0.0.5" :=
  have h := sample_fields_independent
    { serverURL := "http://192.168.1.180/monitor/monitor.php", clientIP := "10.0.0.5",
      intervalSeconds := 20 } readingsMemoryFails
  ⟨h.2.2.2.1 _ [] rfl, h.2.2.2.2.1 _ rfl, h.2.2.2.2.2.2.2.1 _ rfl, h.1⟩

/-! ## The publisher -/

theorem encodeFloat_error_iff (f : Float64) :
    (∃ e, encodeFloat f = .error e) ↔ (IsInf f = true ∨ IsNaN f = true) := by
  unfold encodeFloat
  by_cases h : (IsInf f || IsNaN f) = true
  · rw [if_pos h]
    simpa using h
  · rw [if_neg h]
    have h' : ¬ (IsInf f = true ∨ IsNaN f = true) := by simpa using h
    simp only [h', iff_false, not_exists]
    intro e
    split_ifs <;> simp

/-- The serialization of a sample fails exactly when one of its three numbers is an
infinity or a NaN. -/
theorem Marshal_error_iff (m : Metrics) :
    (∃ e, Marshal m = .error e) ↔
      (IsInf m.CPUUsage = true ∨ IsNaN m.CPUUsage = true)
      ∨ (IsInf m.MemoryUsage = true ∨ IsNaN m.MemoryUsage = true)
      ∨ (IsInf m.DiskUsage = true ∨ IsNaN m.DiskUsage = true) := by
  rw [← encodeFloat_error_iff, ← encodeFloat_error_iff, ← encodeFloat_error_iff]
  unfold Marshal
  cases hc : encodeFloat m.CPUUsage with
  | error e => simp
  | ok cpu =>
    cases hm : encodeFloat m.MemoryUsage with
    | error e => simp
    | ok mem =>
      cases hd : encodeFloat m.DiskUsage with
      | error e => simp
      | ok disk => simp

/-- C8: `sendMetricsToServer` returns a non-nil error exactly when `json.Marshal` fails,
or `http.Post` fails, or reading the response body fails; when `json.Marshal` fails no
POST is issued; when `http.Post` fails the error is the text
"error al enviar solicitud POST: " followed by the text of the underlying error; and when
the three steps succeed it returns nil, whatever the status code of the response. -/
theorem sendMetricsToServer_error_iff
    (httpPost : String → String → String → Except String Response)
    (metrics : Metrics) (serverURL : String) :
    ((sendMetricsToServer httpPost metrics serverURL).1 ≠ none ↔
        (∃ e, Marshal metrics = .error e)
        ∨ (∃ jsonData e, Marshal metrics = .ok jsonData
            ∧ httpPost serverURL "application/json" jsonData = .error e)
        ∨ (∃ jsonData resp e, Marshal metrics = .ok jsonData
            ∧ httpPost serverURL "application/json" jsonData = .ok resp ∧ resp.Body = .error e))
      ∧ (∀ e, Marshal metrics = .error e →
          (sendMetricsToServer httpPost metrics serverURL).2 = [])
      ∧ (∀ jsonData e, Marshal metrics = .ok jsonData →
          httpPost serverURL "application/json" jsonData = .error e →
          (sendMetricsToServer httpPost metrics serverURL).1
            = some ("error al enviar solicitud POST: " ++ e))
      ∧ (∀ jsonData resp body, Marshal metrics = .ok jsonData →
          httpPost serverURL "application/json" jsonData = .ok resp → resp.Body = .ok body →
          (sendMetricsToServer httpPost metrics serverURL).1 = none) := by
  cases hm : Marshal metrics with
  | error e => simp [sendMetricsToServer, hm]
  | ok jsonData =>
    cases hp : httpPost serverURL "application/json" jsonData with
    | error e =>
      refine ⟨?_, ?_, ?_, ?_⟩
      · simp [sendMetricsToServer, hm, hp]
      · intro e1 h1
        cases h1
      · intro j e1 hj hpe
        cases hj
        rw [hp] at hpe
        cases hpe
        simp only [sendMetricsToServer, hm, hp]
      · intro j resp body hj hpe
        cases hj
        rw [hp] at hpe
        cases hpe
    | ok resp =>
      cases hb : resp.Body with
      | error e =>
        refine ⟨?_, ?_, ?_, ?_⟩
        · simp [sendMetricsToServer, hm, hp, hb]
        · intro e1 h1
          cases h1
        · intro j e1 hj hpe
          cases hj
          rw [hp] at hpe
          cases hpe
        · intro j resp1 body hj hpe hbody
          cases hj
          rw [hp] at hpe
          cases hpe
          rw [hb] at hbody
          cases hbody
      | ok body =>
        refine ⟨?_, ?_, ?_, ?_⟩
        · simp [sendMetricsToServer, hm, hp, hb]
        · intro e1 h1
          cases h1
        · intro j e1 hj hpe
          cases hj
          rw [hp] at hpe
          cases hpe
        · intro j resp1 body1 hj hpe hbody
          simp only [sendMetricsToServer, hm, hp, hb]

/-- Witness of C8: an unreachable endpoint gives the POST error with its context; a NaN
gives the serialization error and no POST. -/
theorem sendMetricsToServer_error_iff_witness :
    (sendMetricsToServer postRefused { ClientIP := "10.0.0.5" } "http://192.168.1.180/m").1
        = some ("error al enviar solicitud POST: "
            ++ "dial tcp 192.168.1.180:80: connect: connection refused")
      ∧ sendMetricsToServer postRefused metricsNaN "http://192.168.1.180/m"
        = (some "error al convertir métricas a JSON: json: unsupported value: NaN", []) :=
  ⟨(sendMetricsToServer_error_iff postRefused { ClientIP := "10.0.0.5" }
      "http://192.168.1.180/m").2.2.1 _ _ (by rfl) (by rfl),
   by rfl⟩

/-! ## The body is one JSON object: the string -/

theorem hexDigit_isHexChar (n : Nat) : isHexChar (hexDigit n) = true := by
  unfold hexDigit
  rcases Nat.lt_or_ge n 16 with h | h
  · interval_cases n <;> rfl
  · rw [List.getD_eq_default _ _ (by simpa using h)]
    rfl

theorem scanStr_escapeChar (c : Char) (tail : List Char) :
    scanStr .plain (escapeChar c ++ tail)
      = (scanStr .plain tail).map (fun r => (escapeChar c ++ r.1, r.2)) := by
  unfold escapeChar
  split_ifs with h1 h2 h3 h4 h5 h6 h7 h8
  · rcases h1 with rfl | rfl <;> simp [scanStr, Option.map_map, Function.comp_def]
  · subst h2
    simp [scanStr, Option.map_map, Function.comp_def]
  · subst h3
    simp [scanStr, Option.map_map, Function.comp_def]
  · subst h4
    simp [scanStr, Option.map_map, Function.comp_def]
  · subst h5
    simp [scanStr, Option.map_map, Function.comp_def]
  · subst h6
    simp [scanStr, Option.map_map, Function.comp_def]
  · have h0 : isHexChar '0' = true := rfl
    simp [scanStr, Option.map_map, Function.comp_def, hexDigit_isHexChar, h0]
  · have h0 : isHexChar '0' = true := rfl
    have h2 : isHexChar '2' = true := rfl
    simp [scanStr, Option.map_map, Function.comp_def, hexDigit_isHexChar, h0, h2]
  · have hq : ¬ c = '"' := fun h => h1 (Or.inr h)
    have hb : ¬ c = '\\' := fun h => h1 (Or.inl h)
    have hc : ¬ c.toNat < 0x20 := fun h => h7 (Or.inl h)
    simp [scanStr, hq, hb, hc]

theorem scanStr_encoded (cs tail : List Char) :
    scanStr .plain (cs.flatMap escapeChar ++ '"' :: tail) = some (cs.flatMap escapeChar, tail) := by
  induction cs with
  | nil => simp [scanStr]
  | cons c rest ih =>
    rw [List.flatMap_cons, List.append_assoc, scanStr_escapeChar, ih]
    simp

/-! ## The body is one JSON object: the digits of a number -/

theorem isDigitChar_ofNat (k : Nat) (h : k < 10) : isDigitChar (Char.ofNat (48 + k)) = true := by
  interval_cases k <;> rfl

theorem decimalDigits_isDigit (fuel n : Nat) :
    ∀ c ∈ decimalDigits fuel n, isDigitChar c = true := by
  induction fuel generalizing n with
  | zero => simp [decimalDigits]
  | succ fuel ih =>
    intro c hc
    unfold decimalDigits at hc
    split_ifs at hc with h
    · simp only [List.mem_singleton] at hc
      subst hc
      exact isDigitChar_ofNat n h
    · rcases List.mem_append.mp hc with h1 | h1
      · exact ih _ c h1
      · simp only [List.mem_singleton] at h1
        subst h1
        exact isDigitChar_ofNat _ (Nat.mod_lt _ (by norm_num))

theorem decimalDigits_head (fuel n : Nat) (hn : 0 < n) (hf : n < fuel) :
    ∃ h tl, decimalDigits fuel n = h :: tl ∧ h ≠ '0' := by
  induction fuel generalizing n with
  | zero => omega
  | succ fuel ih =>
    unfold decimalDigits
    split_ifs with h
    · refine ⟨_, [], rfl, ?_⟩
      interval_cases n <;> decide
    · obtain ⟨h1, tl, he, hne⟩ := ih (n / 10) (by omega) (by omega)
      exact ⟨h1, tl ++ [Char.ofNat (48 + n % 10)], by rw [he]; rfl, hne⟩

theorem decimalDigits_length (fuel n k : Nat) (h : n < 10 ^ k) :
    (decimalDigits fuel n).length ≤ max k 1 := by
  induction fuel generalizing n k with
  | zero => simp [decimalDigits]
  | succ fuel ih =>
    unfold decimalDigits
    split_ifs with h10
    · simp
    · have hk : 2 ≤ k := by
        by_contra hk
        have : k = 0 ∨ k = 1 := by omega
        rcases this with rfl | rfl <;> simp at h <;> omega
      obtain ⟨j, rfl⟩ : ∃ j, k = j + 1 := ⟨k - 1, by omega⟩
      have hdiv : n / 10 < 10 ^ j := by
        rw [Nat.div_lt_iff_lt_mul (by norm_num)]
        rw [pow_succ] at h
        exact h
      have := ih (n / 10) j hdiv
      simp only [List.length_append, List.length_singleton]
      omega

theorem trimZeros_cons (h : Char) (tl : List Char) (hne : h ≠ '0') :
    ∃ tl', trimZeros (h :: tl) = h :: tl' ∧ ∀ c ∈ tl', c ∈ tl := by
  have heq : trimZeros (h :: tl) = List.rdropWhile (fun c => c == '0') (h :: tl) := rfl
  have hpre : trimZeros (h :: tl) <+: h :: tl := by
    rw [heq]
    exact List.rdropWhile_prefix _ _
  have hnil : trimZeros (h :: tl) ≠ [] := by
    rw [heq]
    intro h0
    rw [List.rdropWhile_eq_nil_iff] at h0
    have := h0 h (List.mem_cons_self _ _)
    simp at this
    exact hne this
  cases hres : trimZeros (h :: tl) with
  | nil => exact absurd hres hnil
  | cons x tl' =>
    rw [hres] at hpre
    obtain ⟨hx, htl⟩ := List.cons_prefix_cons.mp hpre
    subst hx
    exact ⟨tl', rfl, fun c hc => htl.subset hc⟩

theorem pow10_pos (p : Int) : 0 < pow10 p := by
  unfold pow10
  positivity

theorem okdown_pos (lower den q : Nat) (p : Int) (incl : Bool) (hl : 0 < lower)
    (h : (cmpDecimal lower den q p == .lt || (incl && cmpDecimal lower den q p == .eq)) = true) :
    1 ≤ q := by
  by_contra hq
  have hq0 : q = 0 := by omega
  subst hq0
  have hpos : 0 < lower * pow10 (-p) := Nat.mul_pos hl (pow10_pos _)
  have hgt : cmpDecimal lower den 0 p = .gt := by
    unfold cmpDecimal
    simp only [Nat.zero_mul]
    exact Nat.compare_eq_gt.mpr hpos
  rw [hgt] at h
  cases incl <;> exact absurd h (by decide)

theorem shortestLoop_spec (b : Bounds) (dp : Int) (hl : 0 < b.lower) (fuel n : Nat) :
    ∃ k : Nat, n ≤ k ∧ k ≤ n + fuel ∧ (shortestLoop b dp fuel n).2 = dp - k
      ∧ 1 ≤ (shortestLoop b dp fuel n).1
      ∧ (shortestLoop b dp fuel n).1
          ≤ b.value * pow10 (-(dp - k)) / (b.den * pow10 (dp - k)) + 1 := by
  induction fuel generalizing n with
  | zero => exact ⟨n, le_refl _, le_refl _, rfl, by simp [shortestLoop], by simp [shortestLoop]⟩
  | succ fuel ih =>
    rw [shortestLoop]
    split_ifs with h1 h2 h3 h4
    · exact ⟨n, le_refl _, by omega, rfl, by simp, le_refl _⟩
    · refine ⟨n, le_refl _, by omega, rfl, ?_, by simp⟩
      simp only [Bool.and_eq_true] at h1
      exact okdown_pos _ _ _ _ _ hl h1.1
    · exact ⟨n, le_refl _, by omega, rfl, okdown_pos _ _ _ _ _ hl h3, by simp⟩
    · exact ⟨n, le_refl _, by omega, rfl, by simp, le_refl _⟩
    · obtain ⟨k, hk1, hk2, hk3, hk4, hk5⟩ := ih (n + 1)
      exact ⟨k, by omega, by omega, hk3, hk4, hk5⟩

theorem decimalPoint_range (x den fuel : Nat) (start : Int) :
    start ≤ decimalPoint x den fuel start ∧ decimalPoint x den fuel start ≤ start + fuel := by
  induction fuel generalizing start with
  | zero => simp [decimalPoint]
  | succ fuel ih =>
    unfold decimalPoint
    split_ifs with h
    · constructor <;> omega
    · have := ih (start + 1)
      constructor <;> push_cast <;> omega

theorem mantissa_lt (f : Float64) : mantissa f < 2 ^ 53 := by
  unfold mantissa fracBits
  have h : f % 2 ^ 52 < 2 ^ 52 := Nat.mod_lt _ (by norm_num)
  split_ifs <;> omega

theorem exponent_le (f : Float64) : exponent f ≤ 972 := by
  unfold exponent expBits
  have h : f / 2 ^ 52 % 2048 < 2048 := Nat.mod_lt _ (by norm_num)
  split_ifs <;> omega

theorem bounds_lower_pos (f : Float64) (hm : mantissa f ≠ 0) : 0 < (bounds f).lower := by
  unfold bounds
  simp only []
  apply Nat.mul_pos
  · split_ifs <;> omega
  · positivity

theorem bounds_den_pos (f : Float64) : 0 < (bounds f).den := by
  unfold bounds
  simp only []
  positivity

set_option exponentiation.threshold 2000 in
theorem bounds_value_lt (f : Float64) : (bounds f).value < 2 ^ 1025 := by
  unfold bounds
  simp only []
  have hm := mantissa_lt f
  have he := exponent_le f
  have hs : 2 ^ (exponent f - 2).toNat ≤ 2 ^ 970 :=
    Nat.pow_le_pow_right (by norm_num) (by omega)
  have hpos : 0 < 2 ^ (exponent f - 2).toNat := by positivity
  calc 4 * mantissa f * 2 ^ (exponent f - 2).toNat
      < 2 ^ 55 * 2 ^ (exponent f - 2).toNat := by
        apply Nat.mul_lt_mul_of_pos_right _ hpos
        omega
    _ ≤ 2 ^ 55 * 2 ^ 970 := Nat.mul_le_mul_left _ hs
    _ = 2 ^ 1025 := by rw [← pow_add]

theorem shortest_zero (f : Float64) (hm : mantissa f = 0) : shortest f = { d := [], dp := 0 } := by
  simp [shortest, hm]

set_option exponentiation.threshold 2000 in
theorem two_pow_1025_le : 2 ^ 1025 ≤ 10 ^ 341 := by
  calc 2 ^ 1025 ≤ 2 ^ (100 * 11) := Nat.pow_le_pow_right (by norm_num) (by norm_num)
    _ = (2 ^ 100) ^ 11 := by rw [pow_mul]
    _ ≤ (10 ^ 31) ^ 11 := Nat.pow_le_pow_left (by norm_num) _
    _ = 10 ^ 341 := by rw [← pow_mul]

theorem decimalDigits_length_le (n j v : Nat) (hv : v < 2 ^ 1025) (hn : n ≤ v * 10 ^ j + 1) :
    (decimalDigits (n + 1) n).length ≤ 342 + j := by
  have hpos : 1 ≤ 10 ^ j := Nat.one_le_pow _ _ (by norm_num)
  have h1 : n ≤ (v + 1) * 10 ^ j := by
    rw [Nat.add_mul, Nat.one_mul]
    omega
  have h2 : (v + 1) * 10 ^ j ≤ 10 ^ 341 * 10 ^ j :=
    Nat.mul_le_mul_right _ (le_trans hv two_pow_1025_le)
  have h3 : 10 ^ 341 * 10 ^ j < 10 ^ (342 + j) := by
    rw [← pow_add]
    exact Nat.pow_lt_pow_right (by norm_num) (by omega)
  have := decimalDigits_length (n + 1) n (342 + j) (by omega)
  omega

theorem shortest_spec (f : Float64) (hm : mantissa f ≠ 0) :
    ∃ h tl, (shortest f).d = h :: tl ∧ h ≠ '0' ∧ isDigitChar h = true
      ∧ (∀ c ∈ tl, isDigitChar c = true) ∧ -400 ≤ (shortest f).dp ∧ (shortest f).dp ≤ 800 := by
  obtain ⟨k, -, hk2, hk3, hk4, hk5⟩ := shortestLoop_spec (bounds f)
    (decimalPoint (bounds f).value (bounds f).den 700 (-330)) (bounds_lower_pos f hm) 20 0
  obtain ⟨hd1, hd2⟩ := decimalPoint_range (bounds f).value (bounds f).den 700 (-330)
  have hv := bounds_value_lt f
  have hden := bounds_den_pos f
  unfold shortest
  rw [if_neg hm]
  simp only []
  generalize decimalPoint (bounds f).value (bounds f).den 700 (-330) = dp at *
  generalize shortestLoop (bounds f) dp 20 0 = r at *
  generalize bounds f = b at *
  obtain ⟨h, tl, hds, hne⟩ := decimalDigits_head (r.1 + 1) r.1 (by omega) (by omega)
  obtain ⟨tl', htrim, hsub⟩ := trimZeros_cons h tl hne
  have hdig := decimalDigits_isDigit (r.1 + 1) r.1
  rw [hds] at hdig
  have hlen1 : 1 ≤ (decimalDigits (r.1 + 1) r.1).length := by
    rw [hds]
    simp
  have hq : r.1 ≤ b.value * pow10 (-(dp - k)) + 1 := by
    have := Nat.div_le_self (b.value * pow10 (-(dp - k))) (b.den * pow10 (dp - k))
    omega
  have hlen2 : r.2 + ((decimalDigits (r.1 + 1) r.1).length : Int) ≤ 800 := by
    have := decimalDigits_length_le r.1 (-(dp - k)).toNat b.value hv hq
    omega
  refine ⟨h, tl', ?_, hne, hdig h (List.mem_cons_self _ _), ?_, ?_, hlen2⟩
  · rw [hds, htrim]
  · intro c hc
    exact hdig c (List.mem_cons_of_mem _ (hsub c hc))
  · omega

theorem shortest_good (f : Float64) : GoodSlice (shortest f) := by
  by_cases hm : mantissa f = 0
  · rw [shortest_zero f hm]
    exact ⟨by simp, by simp, fun _ => rfl, by norm_num, by norm_num⟩
  · obtain ⟨h, tl, hd, hne, hh, htl, hlo, hup⟩ := shortest_spec f hm
    refine ⟨?_, ?_, ?_, hlo, hup⟩
    · intro c hc
      rw [hd] at hc
      rcases List.mem_cons.mp hc with rfl | hc
      · exact hh
      · exact htl c hc
    · rw [hd]
      simpa using hne
    · intro h0
      rw [hd] at h0
      cases h0

/-! ## The body is one JSON object: the scan of a number -/

theorem numEnd_comma (rest : List Char) : NumEnd (',' :: rest) := by
  intro st
  cases st <;> rfl

theorem numEnd_brace (rest : List Char) : NumEnd ('\x7d' :: rest) := by
  intro st
  cases st <;> rfl

theorem scanNum_step (st next : NumState) (c : Char) (rest : List Char)
    (h : numStep st c = some next) : scanNum st (c :: rest) = scanNum next rest := by
  simp only [scanNum, h]

theorem scanNum_digits (st : NumState) (hst : st = .int ∨ st = .frac ∨ st = .exp)
    (ds t : List Char) (h : ∀ c ∈ ds, isDigitChar c = true) :
    scanNum st (ds ++ t) = scanNum st t := by
  induction ds with
  | nil => rfl
  | cons c rest ih =>
    have hc := h c (List.mem_cons_self _ _)
    have hstep : numStep st c = some st := by
      rcases hst with rfl | rfl | rfl <;> simp [numStep, hc]
    rw [List.cons_append, scanNum_step st st c _ hstep]
    exact ih (fun x hx => h x (List.mem_cons_of_mem _ hx))

theorem isDigitChar_ne (c x : Char) (hc : isDigitChar c = true) (hx : isDigitChar x = false) :
    c ≠ x := by
  rintro rfl
  rw [hc] at hx
  cases hx

/-- From the start, or behind the sign, a digit other than 0 and more digits lead to the
state `int`. -/
theorem scanNum_int (st : NumState) (hst : st = .start ∨ st = .minus) (h : Char)
    (more rest : List Char) (hh : isDigitChar h = true) (hne : h ≠ '0')
    (hmore : ∀ c ∈ more, isDigitChar c = true) :
    scanNum st (h :: (more ++ rest)) = scanNum .int rest := by
  have hminus : h ≠ '-' := isDigitChar_ne h '-' hh rfl
  have hstep : numStep st h = some .int := by
    rcases hst with rfl | rfl <;> simp [numStep, hminus, hne, hh]
  rw [scanNum_step st .int h _ hstep]
  exact scanNum_digits .int (Or.inl rfl) more rest hmore

theorem scanNum_zero (st : NumState) (hst : st = .start ∨ st = .minus) (rest : List Char) :
    scanNum st ('0' :: rest) = scanNum .zero rest := by
  rcases hst with rfl | rfl <;> exact scanNum_step _ _ _ _ rfl

/-- From the start, or behind the sign, one digit leads to `zero` or to `int`. -/
theorem scanNum_first (st : NumState) (hst : st = .start ∨ st = .minus) (h : Char)
    (rest : List Char) (hh : isDigitChar h = true) :
    ∃ st1, (st1 = .zero ∨ st1 = .int) ∧ scanNum st (h :: rest) = scanNum st1 rest := by
  by_cases h0 : h = '0'
  · subst h0
    exact ⟨.zero, Or.inl rfl, scanNum_zero st hst rest⟩
  · exact ⟨.int, Or.inr rfl, by simpa using scanNum_int st hst h [] rest hh h0 (by simp)⟩

theorem scanNum_end (st : NumState) (hst : numAccepting st = true) (t : List Char)
    (ht : NumEnd t) : scanNum st t = some t := by
  rw [ht st, hst]
  rfl

/-- Behind the integer part, a point and at least one digit end the number. -/
theorem scanNum_fraction (st : NumState) (hst : st = .zero ∨ st = .int) (c : Char)
    (cs t : List Char) (hc : isDigitChar c = true) (hcs : ∀ x ∈ cs, isDigitChar x = true)
    (ht : NumEnd t) : scanNum st ('.' :: c :: (cs ++ t)) = some t := by
  have hdot : numStep st '.' = some .dot := by
    rcases hst with rfl | rfl <;> rfl
  have hfrac : numStep .dot c = some .frac := by simp [numStep, hc]
  rw [scanNum_step _ _ _ _ hdot, scanNum_step _ _ _ _ hfrac,
    scanNum_digits .frac (Or.inr (Or.inl rfl)) cs t hcs]
  exact scanNum_end .frac rfl t ht

/-- Behind the integer part or the fraction, `e`, a sign and at least one digit end the
number. -/
theorem scanNum_exponent (st : NumState) (hst : st = .zero ∨ st = .int ∨ st = .frac)
    (sign c : Char) (cs t : List Char) (hsign : sign = '+' ∨ sign = '-')
    (hc : isDigitChar c = true) (hcs : ∀ x ∈ cs, isDigitChar x = true) (ht : NumEnd t) :
    scanNum st ('e' :: sign :: c :: (cs ++ t)) = some t := by
  have he : numStep st 'e' = some .e := by
    rcases hst with rfl | rfl | rfl <;> rfl
  have hs : numStep .e sign = some .esign := by
    rcases hsign with rfl | rfl <;> rfl
  have hd : numStep .esign c = some .exp := by simp [numStep, hc]
  rw [scanNum_step _ _ _ _ he, scanNum_step _ _ _ _ hs, scanNum_step _ _ _ _ hd,
    scanNum_digits .exp (Or.inr (Or.inr rfl)) cs t hcs]
  exact scanNum_end .exp rfl t ht

theorem getD_isDigit (l : List Char) (i : Nat) (h : ∀ c ∈ l, isDigitChar c = true) :
    isDigitChar (l.getD i '0') = true := by
  rcases Nat.lt_or_ge i l.length with hi | hi
  · rw [List.getD_eq_getElem l '0' hi]
    exact h _ (List.getElem_mem _)
  · rw [List.getD_eq_default l '0' hi]
    rfl

/-- The integer part `fmtF` writes leads from the start, or from behind the sign, to the
state `zero` or `int`. -/
theorem scanNum_intPart (d : DecimalSlice) (hd : GoodSlice d) (st : NumState)
    (hst : st = .start ∨ st = .minus) (rest : List Char) :
    ∃ st1, (st1 = .zero ∨ st1 = .int) ∧
      scanNum st ((if d.dp > 0 then
          d.d.take d.dp.toNat ++ List.replicate (d.dp.toNat - d.d.length) '0'
        else ['0']) ++ rest) = scanNum st1 rest := by
  by_cases hdp : d.dp > 0
  · rw [if_pos hdp]
    cases hdd : d.d with
    | nil =>
      have := hd.empty hdd
      omega
    | cons h tl =>
      obtain ⟨n, hn⟩ : ∃ n, d.dp.toNat = n + 1 := ⟨d.dp.toNat - 1, by omega⟩
      have hh : isDigitChar h = true := hd.digits h (by rw [hdd]; exact List.mem_cons_self _ _)
      have hne : h ≠ '0' := by
        have := hd.head
        rw [hdd] at this
        simpa using this
      refine ⟨.int, Or.inr rfl, ?_⟩
      rw [hn, List.take_succ_cons, List.cons_append, List.cons_append]
      apply scanNum_int st hst h _ rest hh hne
      intro c hc
      rcases List.mem_append.mp hc with h1 | h1
      · exact hd.digits c (by rw [hdd]; exact List.mem_cons_of_mem _ (List.mem_of_mem_take h1))
      · rw [List.eq_of_mem_replicate h1]
        rfl
  · rw [if_neg hdp]
    exact ⟨.zero, Or.inl rfl, scanNum_zero st hst rest⟩

/-- The fraction `fmtF` writes ends the number. -/
theorem scanNum_fracPart (d : DecimalSlice) (hd : GoodSlice d) (st : NumState)
    (hst : st = .zero ∨ st = .int) (prec : Nat) (t : List Char) (ht : NumEnd t) :
    scanNum st ((if prec > 0 then
        '.' :: (List.range prec).map (fun (i : Nat) =>
          let j : Int := d.dp + (i : Int)
          if 0 ≤ j ∧ j < (d.d.length : Int) then d.d.getD j.toNat '0' else '0')
      else []) ++ t) = some t := by
  have hacc : numAccepting st = true := by
    rcases hst with rfl | rfl <;> rfl
  cases prec with
  | zero => exact scanNum_end st hacc t ht
  | succ n =>
    rw [if_pos (Nat.succ_pos n), List.range_succ_eq_map, List.map_cons, List.cons_append,
      List.cons_append]
    apply scanNum_fraction st hst _ _ t _ _ ht
    · simp only []
      split_ifs
      · exact getD_isDigit _ _ hd.digits
      · rfl
    · intro x hx
      obtain ⟨i, -, rfl⟩ := List.mem_map.mp hx
      simp only []
      split_ifs
      · exact getD_isDigit _ _ hd.digits
      · rfl

theorem scanNum_fmtF (neg : Bool) (d : DecimalSlice) (hd : GoodSlice d) (t : List Char)
    (ht : NumEnd t) : scanNum .start (fmtF neg d ++ t) = some t := by
  unfold fmtF
  simp only [List.append_assoc]
  cases neg with
  | false =>
    obtain ⟨st1, hst1, h1⟩ := scanNum_intPart d hd .start (Or.inl rfl)
      ((if (d.d.length - d.dp : Int).toNat > 0 then
        '.' :: (List.range (d.d.length - d.dp : Int).toNat).map (fun (i : Nat) =>
          let j : Int := d.dp + (i : Int)
          if 0 ≤ j ∧ j < (d.d.length : Int) then d.d.getD j.toNat '0' else '0')
      else []) ++ t)
    simp only [Bool.false_eq_true, if_false, List.nil_append]
    rw [h1]
    exact scanNum_fracPart d hd st1 hst1 _ t ht
  | true =>
    obtain ⟨st1, hst1, h1⟩ := scanNum_intPart d hd .minus (Or.inr rfl)
      ((if (d.d.length - d.dp : Int).toNat > 0 then
        '.' :: (List.range (d.d.length - d.dp : Int).toNat).map (fun (i : Nat) =>
          let j : Int := d.dp + (i : Int)
          if 0 ≤ j ∧ j < (d.d.length : Int) then d.d.getD j.toNat '0' else '0')
      else []) ++ t)
    simp only [if_true, List.singleton_append]
    rw [scanNum_step .start .minus '-' _ rfl, h1]
    exact scanNum_fracPart d hd st1 hst1 _ t ht

/-! ## The body is one JSON object: the exponent form -/

theorem cleanExponent_two (pre : List Char) (s x y : Char) (hs : s = '+' ∨ s = '-') :
    cleanExponent (pre ++ ['e', s, x, y])
      = if x = '0' then pre ++ ['e', s, y] else pre ++ ['e', s, x, y] := by
  have hlen : (pre ++ ['e', s, x, y]).length = pre.length + 4 := by simp
  have h4 : (pre ++ ['e', s, x, y]).getD (pre.length + 4 - 4) ' ' = 'e' := by
    rw [show pre.length + 4 - 4 = pre.length by omega,
      List.getD_append_right _ _ _ _ (le_refl _)]
    simp
  have h3 : (pre ++ ['e', s, x, y]).getD (pre.length + 4 - 3) ' ' = s := by
    rw [show pre.length + 4 - 3 = pre.length + 1 by omega,
      List.getD_append_right _ _ _ _ (by omega)]
    simp
  have h2 : (pre ++ ['e', s, x, y]).getD (pre.length + 4 - 2) ' ' = x := by
    rw [show pre.length + 4 - 2 = pre.length + 2 by omega,
      List.getD_append_right _ _ _ _ (by omega)]
    simp
  have h1 : (pre ++ ['e', s, x, y]).getD (pre.length + 4 - 1) ' ' = y := by
    rw [show pre.length + 4 - 1 = pre.length + 3 by omega,
      List.getD_append_right _ _ _ _ (by omega)]
    simp
  have htake : (pre ++ ['e', s, x, y]).take (pre.length + 4 - 2) = pre ++ ['e', s] := by
    rw [show pre.length + 4 - 2 = pre.length + 2 by omega, List.take_append]
    rfl
  have hs' : s = '-' ∨ s = '+' := hs.symm
  unfold cleanExponent
  simp only [hlen, h4, h3, h2, h1, htake]
  by_cases hx : x = '0'
  · rw [if_pos ⟨by omega, trivial, hs', hx⟩, if_pos hx]
    simp
  · rw [if_neg (fun h => hx h.2.2.2), if_neg hx]

theorem cleanExponent_three (pre : List Char) (s a x y : Char) (hs : s = '+' ∨ s = '-') :
    cleanExponent (pre ++ ['e', s, a, x, y]) = pre ++ ['e', s, a, x, y] := by
  have hlen : (pre ++ ['e', s, a, x, y]).length = pre.length + 5 := by simp
  have h4 : (pre ++ ['e', s, a, x, y]).getD (pre.length + 5 - 4) ' ' = s := by
    rw [show pre.length + 5 - 4 = pre.length + 1 by omega,
      List.getD_append_right _ _ _ _ (by omega)]
    simp
  have hne : s ≠ 'e' := by
    rcases hs with rfl | rfl <;> decide
  unfold cleanExponent
  simp only [hlen, h4]
  rw [if_neg (fun h => hne h.2.1)]

/-- The exponent `fmtE` writes, cleaned up: `e`, a sign and at least one digit. -/
theorem cleanExponent_fmtE (neg : Bool) (d : DecimalSlice) (hd : GoodSlice d) :
    ∃ s c cs, (s = '+' ∨ s = '-') ∧ isDigitChar c = true ∧ (∀ x ∈ cs, isDigitChar x = true)
      ∧ cleanExponent (fmtE neg d)
        = ((if neg then ['-'] else []) ++ [d.d.getD 0 '0']
            ++ (if d.d.length - 1 > 0 then '.' :: d.d.drop 1 else []))
          ++ 'e' :: s :: c :: cs := by
  have hmag : (if d.d.length = 0 then (0 : Int) else d.dp - 1).natAbs < 1000 := by
    have h1 := hd.lower
    have h2 := hd.upper
    split_ifs <;> omega
  unfold fmtE
  simp only []
  generalize (if d.d.length = 0 then (0 : Int) else d.dp - 1) = exp at hmag
  generalize ((if neg then ['-'] else []) ++ [d.d.getD 0 '0']
      ++ (if d.d.length - 1 > 0 then '.' :: d.d.drop 1 else [])) = pre
  have hsign : (if exp < 0 then '-' else '+') = '+' ∨ (if exp < 0 then '-' else '+') = '-' := by
    split_ifs
    · exact Or.inr rfl
    · exact Or.inl rfl
  generalize (if exp < 0 then '-' else '+') = s at hsign
  generalize exp.natAbs = mag at hmag
  by_cases h10 : mag < 10
  · refine ⟨s, Char.ofNat (48 + mag), [], hsign, isDigitChar_ofNat _ h10, by simp, ?_⟩
    rw [if_pos h10, List.append_assoc]
    have := cleanExponent_two pre s '0' (Char.ofNat (48 + mag)) hsign
    simpa using this
  · rw [if_neg h10]
    by_cases h100 : mag < 100
    · rw [if_pos h100, List.append_assoc]
      have hc1 := isDigitChar_ofNat (mag / 10) (by omega)
      have hc2 := isDigitChar_ofNat (mag % 10) (by omega)
      have := cleanExponent_two pre s (Char.ofNat (48 + mag / 10)) (Char.ofNat (48 + mag % 10)) hsign
      by_cases hz : Char.ofNat (48 + mag / 10) = '0'
      · refine ⟨s, Char.ofNat (48 + mag % 10), [], hsign, hc2, by simp, ?_⟩
        rw [if_pos hz] at this
        simpa using this
      · refine ⟨s, Char.ofNat (48 + mag / 10), [Char.ofNat (48 + mag % 10)], hsign, hc1,
          by simpa using hc2, ?_⟩
        rw [if_neg hz] at this
        simpa using this
    · rw [if_neg h100, List.append_assoc]
      have hc1 := isDigitChar_ofNat (mag / 100) (by omega)
      have hc2 := isDigitChar_ofNat (mag / 10 % 10) (by omega)
      have hc3 := isDigitChar_ofNat (mag % 10) (by omega)
      refine ⟨s, Char.ofNat (48 + mag / 100),
        [Char.ofNat (48 + mag / 10 % 10), Char.ofNat (48 + mag % 10)], hsign, hc1, ?_, ?_⟩
      · intro x hx
        simp only [List.mem_cons, List.mem_singleton, List.not_mem_nil, or_false] at hx
        rcases hx with rfl | rfl
        · exact hc2
        · exact hc3
      · have := cleanExponent_three pre s (Char.ofNat (48 + mag / 100))
          (Char.ofNat (48 + mag / 10 % 10)) (Char.ofNat (48 + mag % 10)) hsign
        simpa using this

theorem scanNum_fraction_then (st : NumState) (hst : st = .zero ∨ st = .int) (c : Char)
    (cs rest : List Char) (hc : isDigitChar c = true) (hcs : ∀ x ∈ cs, isDigitChar x = true) :
    scanNum st ('.' :: c :: (cs ++ rest)) = scanNum .frac rest := by
  have hdot : numStep st '.' = some .dot := by
    rcases hst with rfl | rfl <;> rfl
  have hfrac : numStep .dot c = some .frac := by simp [numStep, hc]
  rw [scanNum_step _ _ _ _ hdot, scanNum_step _ _ _ _ hfrac,
    scanNum_digits .frac (Or.inr (Or.inl rfl)) cs rest hcs]

theorem scanNum_fmtE (neg : Bool) (d : DecimalSlice) (hd : GoodSlice d) (t : List Char)
    (ht : NumEnd t) : scanNum .start (cleanExponent (fmtE neg d) ++ t) = some t := by
  obtain ⟨s, c, cs, hs, hc, hcs, heq⟩ := cleanExponent_fmtE neg d hd
  rw [heq]
  have hd0 : isDigitChar (d.d.getD 0 '0') = true := getD_isDigit _ _ hd.digits
  -- behind the sign and the first digit
  have hrest : ∀ st1, (st1 = .zero ∨ st1 = .int) →
      scanNum st1 ((if d.d.length - 1 > 0 then '.' :: d.d.drop 1 else [])
        ++ ('e' :: s :: c :: (cs ++ t))) = some t := by
    intro st1 hst1
    by_cases hlen : d.d.length - 1 > 0
    · rw [if_pos hlen]
      cases hdd : d.d with
      | nil => simp [hdd] at hlen
      | cons h tl =>
        cases tl with
        | nil => simp [hdd] at hlen
        | cons c2 cs2 =>
          have hdig : ∀ x ∈ c2 :: cs2, isDigitChar x = true := fun x hx =>
            hd.digits x (by rw [hdd]; exact List.mem_cons_of_mem _ hx)
          rw [List.drop_succ_cons, List.drop_zero, List.cons_append, List.cons_append,
            scanNum_fraction_then st1 hst1 c2 cs2 _ (hdig c2 (List.mem_cons_self _ _))
              (fun x hx => hdig x (List.mem_cons_of_mem _ hx))]
          exact scanNum_exponent .frac (Or.inr (Or.inr rfl)) s c cs t hs hc hcs ht
    · rw [if_neg hlen, List.nil_append]
      exact scanNum_exponent st1 (hst1.elim Or.inl (fun h => Or.inr (Or.inl h))) s c cs t hs hc
        hcs ht
  cases neg with
  | false =>
    simp only [Bool.false_eq_true, if_false, List.nil_append, List.append_assoc,
      List.singleton_append, List.cons_append]
    obtain ⟨st1, hst1, h1⟩ := scanNum_first .start (Or.inl rfl) (d.d.getD 0 '0')
      ((if d.d.length - 1 > 0 then '.' :: d.d.drop 1 else []) ++ ('e' :: s :: c :: (cs ++ t))) hd0
    rw [h1]
    exact hrest st1 hst1
  | true =>
    simp only [if_true, List.nil_append, List.append_assoc, List.singleton_append,
      List.cons_append]
    obtain ⟨st1, hst1, h1⟩ := scanNum_first .minus (Or.inr rfl) (d.d.getD 0 '0')
      ((if d.d.length - 1 > 0 then '.' :: d.d.drop 1 else []) ++ ('e' :: s :: c :: (cs ++ t))) hd0
    rw [scanNum_step .start .minus '-' _ rfl, h1]
    exact hrest st1 hst1

/-- The text `encodeFloat` writes is one JSON number. -/
theorem scanNum_encodeFloat (f : Float64) (text : String) (h : encodeFloat f = .ok text)
    (t : List Char) (ht : NumEnd t) : scanNum .start (text.toList ++ t) = some t := by
  unfold encodeFloat at h
  by_cases h1 : (IsInf f || IsNaN f) = true
  · rw [if_pos h1] at h
    cases h
  · rw [if_neg h1] at h
    simp only [] at h
    split_ifs at h with h2
    · simp only [Except.ok.injEq] at h
      subst h
      exact scanNum_fmtE _ _ (shortest_good f) t ht
    · simp only [Except.ok.injEq] at h
      subst h
      exact scanNum_fmtF _ _ (shortest_good f) t ht

theorem scanValue_of_scanNum (l t : List Char) (h : scanNum .start l = some t) :
    scanValue l = some t := by
  cases l with
  | nil => simp [scanNum, numAccepting] at h
  | cons c rest =>
    by_cases hq : c = '"'
    · subst hq
      simp [scanNum, numStep, numAccepting, isDigitChar] at h
    · simp only [scanValue, hq, if_false]
      exact h

/-! ## The body is one JSON object: the members -/

theorem scanMembers_member (fuel : Nat) (key tail rest : List Char)
    (hkey : key.flatMap escapeChar = key) (hval : scanValue tail = some (',' :: rest)) :
    scanMembers (fuel + 1) ('"' :: (key ++ '"' :: ':' :: tail))
      = (scanMembers fuel rest).map (fun ks => String.mk key :: ks) := by
  have hk := scanStr_encoded key (':' :: tail)
  rw [hkey] at hk
  simp only [scanMembers, if_true, hk, hval]

theorem scanMembers_last (fuel : Nat) (key tail : List Char)
    (hkey : key.flatMap escapeChar = key) (hval : scanValue tail = some ['\x7d']) :
    scanMembers (fuel + 1) ('"' :: (key ++ '"' :: ':' :: tail)) = some [String.mk key] := by
  have hk := scanStr_encoded key (':' :: tail)
  rw [hkey] at hk
  simp [scanMembers, hk, hval]

theorem Marshal_toList (m : Metrics) (body : String) (h : Marshal m = .ok body) :
    ∃ cpu mem disk, encodeFloat m.CPUUsage = .ok cpu ∧ encodeFloat m.MemoryUsage = .ok mem
      ∧ encodeFloat m.DiskUsage = .ok disk
      ∧ body.toList = '\x7b' :: '"' :: ("clientIP".toList ++ '"' :: ':' :: ('"' ::
          (m.ClientIP.toList.flatMap escapeChar ++ '"' :: ',' :: '"' ::
          ("cpuUsage".toList ++ '"' :: ':' :: (cpu.toList ++ ',' :: '"' ::
          ("memoryUsage".toList ++ '"' :: ':' :: (mem.toList ++ ',' :: '"' ::
          ("diskUsage".toList ++ '"' :: ':' :: (disk.toList ++ ['\x7d']))))))))) := by
  unfold Marshal at h
  cases hc : encodeFloat m.CPUUsage with
  | error e => simp [hc] at h
  | ok cpu =>
    cases hm : encodeFloat m.MemoryUsage with
    | error e => simp [hc, hm] at h
    | ok mem =>
      cases hd : encodeFloat m.DiskUsage with
      | error e => simp [hc, hm, hd] at h
      | ok disk =>
        simp only [hc, hm, hd, Except.ok.injEq] at h
        refine ⟨cpu, mem, disk, rfl, rfl, rfl, ?_⟩
        subst h
        simp only [String.toList, String.data_append, encodeString]
        simp

/-- Whatever `json.Marshal` writes for a `Metrics` scans as one JSON object whose keys
are, in order, clientIP, cpuUsage, memoryUsage and diskUsage. -/
theorem objectKeys_Marshal (m : Metrics) (body : String) (h : Marshal m = .ok body) :
    objectKeys body = some ["clientIP", "cpuUsage", "memoryUsage", "diskUsage"] := by
  obtain ⟨cpu, mem, disk, hc, hm, hd, hlist⟩ := Marshal_toList m body h
  have hlen : ∃ n, body.length = n + 4 := by
    refine ⟨body.length - 4, ?_⟩
    have : body.length = body.toList.length := rfl
    rw [this, hlist]
    simp only [List.length_cons, List.length_append]
    omega
  obtain ⟨n, hn⟩ := hlen
  have hv1 : ∀ rest, scanValue ('"' :: (m.ClientIP.toList.flatMap escapeChar ++ '"' :: ',' :: rest))
      = some (',' :: rest) := by
    intro rest
    simp [scanValue, scanStr_encoded]
  have hv2 : ∀ rest, scanValue (cpu.toList ++ ',' :: rest) = some (',' :: rest) := fun rest =>
    scanValue_of_scanNum _ _ (scanNum_encodeFloat _ cpu hc _ (numEnd_comma rest))
  have hv3 : ∀ rest, scanValue (mem.toList ++ ',' :: rest) = some (',' :: rest) := fun rest =>
    scanValue_of_scanNum _ _ (scanNum_encodeFloat _ mem hm _ (numEnd_comma rest))
  have hv4 : scanValue (disk.toList ++ ['\x7d']) = some ['\x7d'] :=
    scanValue_of_scanNum _ _ (scanNum_encodeFloat _ disk hd _ (numEnd_brace []))
  unfold objectKeys
  rw [hlist, hn]
  simp only [if_true]
  rw [scanMembers_member _ _ _ _ (by rfl) (hv1 _), scanMembers_member _ _ _ _ (by rfl) (hv2 _),
    scanMembers_member _ _ _ _ (by rfl) (hv3 _), scanMembers_last _ _ _ (by rfl) hv4]
  rfl

/-! ## The body of the POST -/

/-- The three numbers of the scenario: 12.5 = 25 * 2^-1 and 88 exactly, and for 47.3 the
`float64` nearest to 473/10 (within half a unit of the last place, 2^-48). -/
theorem scenarioMetrics_values :
    (mantissa scenarioMetrics.CPUUsage = 25 * 2 ^ 48 ∧ exponent scenarioMetrics.CPUUsage = -49)
      ∧ (mantissa scenarioMetrics.DiskUsage = 88 * 2 ^ 46 ∧ exponent scenarioMetrics.DiskUsage = -46)
      ∧ (exponent scenarioMetrics.MemoryUsage = -47
          ∧ (10 * (mantissa scenarioMetrics.MemoryUsage : Int) - 473 * 2 ^ 47).natAbs ≤ 5)
      ∧ signBit scenarioMetrics.CPUUsage = false ∧ signBit scenarioMetrics.MemoryUsage = false
      ∧ signBit scenarioMetrics.DiskUsage = false := by
  decide

set_option maxRecDepth 100000 in
set_option exponentiation.threshold 400 in
theorem Marshal_scenarioMetrics :
    Marshal scenarioMetrics
      = .ok "\x7b\"clientIP\":\"192.168.1.42\",\"cpuUsage\":12.5,\"memoryUsage\":47.3,\"diskUsage\":88\x7d" := by
  rfl

/-- C7, refuted as stated: for the sample of the scenario the body is not the byte string
that ends in `"diskUsage":88.0`; `json.Marshal` writes the `float64` 88 as `88`, and that
is the body `sendMetricsToServer` posts. -/
theorem scenario_body_is_not_as_claimed :
    Marshal scenarioMetrics
        ≠ .ok "\x7b\"clientIP\":\"192.168.1.42\",\"cpuUsage\":12.5,\"memoryUsage\":47.3,\"diskUsage\":88.0\x7d"
      ∧ (sendMetricsToServer postRefused scenarioMetrics "http://192.168.1.180/m").2
        = [Event.httpPost "http://192.168.1.180/m" "application/json"
            "\x7b\"clientIP\":\"192.168.1.42\",\"cpuUsage\":12.5,\"memoryUsage\":47.3,\"diskUsage\":88\x7d"] := by
  constructor
  · rw [Marshal_scenarioMetrics]
    exact fun h => absurd (Except.ok.inj h) (by decide)
  · simp only [sendMetricsToServer, Marshal_scenarioMetrics, postRefused]

/-- C7, amended: for the sample with address "192.168.1.42", CPU 12.5, memory 47.3 and
disk 88.0 the body that `sendMetricsToServer` posts is exactly
`{"clientIP":"192.168.1.42","cpuUsage":12.5,"memoryUsage":47.3,"diskUsage":88}`; in
general, whenever the sample can be serialized, the body is one JSON object with the four
keys clientIP, cpuUsage, memoryUsage, diskUsage in that order and no other key: it is the
encoded address string and the three encoded numbers after their keys, between braces,
and it scans as a JSON object with exactly these keys; and that body is what is posted,
with the content type application/json. -/
theorem post_body_shape :
    Marshal scenarioMetrics
        = .ok "\x7b\"clientIP\":\"192.168.1.42\",\"cpuUsage\":12.5,\"memoryUsage\":47.3,\"diskUsage\":88\x7d"
      ∧ (∀ (m : Metrics) (body : String), Marshal m = .ok body →
          (∃ cpu mem disk, encodeFloat m.CPUUsage = .ok cpu ∧ encodeFloat m.MemoryUsage = .ok mem
            ∧ encodeFloat m.DiskUsage = .ok disk
            ∧ body = "\x7b\"clientIP\":" ++ encodeString m.ClientIP ++ ",\"cpuUsage\":" ++ cpu
                ++ ",\"memoryUsage\":" ++ mem ++ ",\"diskUsage\":" ++ disk ++ "\x7d")
          ∧ objectKeys body = some ["clientIP", "cpuUsage", "memoryUsage", "diskUsage"])
      ∧ (∀ (httpPost : String → String → String → Except String Response) (m : Metrics)
          (serverURL body : String), Marshal m = .ok body →
          (sendMetricsToServer httpPost m serverURL).2.head?
            = some (Event.httpPost serverURL "application/json" body)) := by
  refine ⟨Marshal_scenarioMetrics, ?_, ?_⟩
  · intro m body h
    refine ⟨?_, objectKeys_Marshal m body h⟩
    unfold Marshal at h
    cases hc : encodeFloat m.CPUUsage with
    | error e => simp [hc] at h
    | ok cpu =>
      cases hm : encodeFloat m.MemoryUsage with
      | error e => simp [hc, hm] at h
      | ok mem =>
        cases hd : encodeFloat m.DiskUsage with
        | error e => simp [hc, hm, hd] at h
        | ok disk =>
          simp only [hc, hm, hd, Except.ok.injEq] at h
          exact ⟨cpu, mem, disk, rfl, rfl, rfl, h.symm⟩
  · intro httpPost m serverURL body h
    unfold sendMetricsToServer
    simp only [h]
    cases hp : httpPost serverURL "application/json" body with
    | error e => simp
    | ok resp => cases hb : resp.Body <;> simp [hb]

/-- Witness of C7 amended: the body posted for the sample of the scenario. -/
theorem post_body_shape_witness :
    (sendMetricsToServer postRefused scenarioMetrics "http://192.168.1.180/m").2.head?
      = some (Event.httpPost "http://192.168.1.180/m" "application/json"
          "\x7b\"clientIP\":\"192.168.1.42\",\"cpuUsage\":12.5,\"memoryUsage\":47.3,\"diskUsage\":88\x7d") :=
  post_body_shape.2.2 postRefused scenarioMetrics "http://192.168.1.180/m" _ post_body_shape.1

end MonitorService
